import Mathlib

/-!
Verification of the KOBO_UPDATER field-mapping / validation engine and its
streaming batch-submission pipeline.

The definitions below are a shallow embedding of `src/clone_feature.py`,
`src/update_feature.py` and `src/schemas.py`:

* Python strings are Lean `String`s; a pandas cell is `Option String`
  (`none` models a NaN / missing value, `some s` models a cell whose
  `str(val)` is `s`).
* Python dicts keyed by strings are association lists with overwrite-on-
  assignment semantics (`dinsert`).
* `float(...)` is modelled as exact decimal/exponent parsing into `ℚ`
  (`parseFloat`); `inf`/`nan` literals and digit underscores are not
  modelled (on such inputs the integer branch of the source rejects as
  well, since `is_integer()` is false for them).
* `pd.to_datetime` is an external library call; the validator is
  parametrised by an arbitrary date parser `dp : String → Option (Nat ×
  Nat × Nat)` returning `some` exactly when parsing succeeds.
* the streaming generator of each feature is split into the per-row loop
  body (`cloneStep` / `updateStep`, a direct translation of the body of
  `for idx, row in df.iterrows()`) and the loop skeleton `runLoop` that
  realises `continue` / `break` / `return` / uncaught exceptions.
-/

/-- Python dict assignment `d[k] = v`: replace the value in place if the key
exists, otherwise append the new binding (insertion order preserved, as in
CPython). -/
def dinsert {α : Type} : List (String × α) → String → α → List (String × α)
  | [], k, v => [(k, v)]
  | (k', v') :: t, k, v =>
    if k' = k then (k, v) :: t else (k', v') :: dinsert t k v

/-- Python dict lookup `d.get(k)`. -/
def dget {α : Type} (d : List (String × α)) (k : String) : Option α :=
  (d.find? (fun p => p.1 == k)).map (fun p => p.2)

/-- Python `str(x)` applied to an optional string (`str(None) = "None"`). -/
def pyStr : Option String → String
  | some s => s
  | none => "None"

/-- Truncate a character list at the first `'.'`:
`str(x).split('.')[0]` of `src/clone_feature.py` line 149 and
`src/update_feature.py` line 129. -/
def truncAtDot : List Char → List Char
  | [] => []
  | c :: cs => if c = '.' then [] else c :: truncAtDot cs

/-- Remove trailing whitespace characters. -/
def dropTrailingWs (l : List Char) : List Char :=
  (l.reverse.dropWhile Char.isWhitespace).reverse

/-- Python `str.strip()` on a character list: drop leading and trailing
whitespace. -/
def trimChars (l : List Char) : List Char :=
  dropTrailingWs (l.dropWhile Char.isWhitespace)

/-- Python `str.strip()`. -/
def pyStrip (s : String) : String := ⟨trimChars s.data⟩

/-- Numeric value of a digit run. -/
def digitsVal (l : List Char) : Nat :=
  l.foldl (fun a c => a * 10 + (c.toNat - 48)) 0

/-- Python `str.lower()` (ASCII case folding, character by character). -/
def pyLower (s : String) : String := ⟨s.data.map Char.toLower⟩

/-- Python `str.replace(',', ' ')`: single-character substitution. -/
def pyReplaceComma (s : String) : String :=
  ⟨s.data.map (fun c => if c = ',' then ' ' else c)⟩

/-- Split a character list at every character satisfying `p`; the pieces
between separators are kept (possibly empty), like `str.split(sep)`. -/
def splitChars (p : Char → Bool) : List Char → List (List Char)
  | [] => [[]]
  | c :: cs =>
    if p c then [] :: splitChars p cs
    else
      match splitChars p cs with
      | [] => [[c]]
      | h :: t => (c :: h) :: t

/-- Split a string at every character satisfying `p`. -/
def pySplit (s : String) (p : Char → Bool) : List String :=
  (splitChars p s.data).map (fun l => ⟨l⟩)

/-- Parse a non-empty all-digit string as a natural number. -/
def pyToNat (s : String) : Option Nat :=
  if !s.data.isEmpty && s.data.all Char.isDigit then some (digitsVal s.data)
  else none

/-- Identifier normalization `str(raw_id).split('.')[0].strip()`
(`src/clone_feature.py` line 149, `src/update_feature.py` line 129). -/
def normalizeId (s : String) : String := ⟨trimChars (truncAtDot s.data)⟩

/-- Python `str.isdigit()` restricted to ASCII decimal digits: true iff the
string is non-empty and all characters are digits. -/
def pyIsdigit (s : String) : Bool := !s.data.isEmpty && s.data.all Char.isDigit

/-- The `KoboUpdateSchema.validate_kobo_id` check (`src/schemas.py` lines 31-41). -/
def validate_kobo_id (v : String) : Except String String :=
  if !pyIsdigit v then .error "The _id must contain only numbers."
  else if v.length < 7 ∨ 8 < v.length then
    .error "The _id length appears invalid for a Kobo record."
  else .ok v

/-- Whether an `Except` result is a success. -/
def isAccepted {ε α : Type} : Except ε α → Bool
  | .ok _ => true
  | .error _ => false

/-- A parsed real value, represented exactly as `num / 10 ^ shift`. -/
structure DecReal where
  num : Int
  shift : Nat
deriving DecidableEq

/-- Optional exponent tail of a Python float literal (`e`/`E`, optional
sign, digit run); scales the mantissa. -/
def parseExpPart (num : Int) (shift : Nat) : List Char → Option DecReal
  | [] => some ⟨num, shift⟩
  | e :: rest =>
    if e = 'e' ∨ e = 'E' then
      let sr : Bool × List Char :=
        match rest with
        | '+' :: r => (false, r)
        | '-' :: r => (true, r)
        | r => (false, r)
      let ds := sr.2.takeWhile Char.isDigit
      let r3 := sr.2.dropWhile Char.isDigit
      if ds = [] ∨ r3 ≠ [] then none
      else if sr.1 then some ⟨num, shift + digitsVal ds⟩
      else some ⟨num * (10 : Int) ^ digitsVal ds, shift⟩
    else none

/-- Unsigned part of a Python float literal: digit run, optional fractional
part, optional exponent. -/
def parseUnsigned (l : List Char) : Option DecReal :=
  let ip := l.takeWhile Char.isDigit
  let r1 := l.dropWhile Char.isDigit
  match r1 with
  | '.' :: r2 =>
    let fp := r2.takeWhile Char.isDigit
    let r3 := r2.dropWhile Char.isDigit
    if ip = [] ∧ fp = [] then none
    else parseExpPart ((digitsVal ip : Int) * (10 : Int) ^ fp.length + digitsVal fp)
      fp.length r3
  | _ => if ip = [] then none else parseExpPart (digitsVal ip : Int) 0 r1

/-- Python `float(s)` on an already-stripped string, modelled as exact
parsing of decimal/exponent literals (`inf`, `nan` and digit underscores
are not modelled; on those inputs the integer branch of the source rejects
as well, since `is_integer()` is false for them). -/
def parseFloat (s : String) : Option DecReal :=
  match s.data with
  | '+' :: r => parseUnsigned r
  | '-' :: r => (parseUnsigned r).map (fun v => ⟨-v.num, v.shift⟩)
  | l => parseUnsigned l

/-- Python `float.is_integer()`: the value `num / 10 ^ shift` is
mathematically a whole number. -/
def DecReal.isWhole (v : DecReal) : Bool := v.num % (10 : Int) ^ v.shift == 0

/-- Python `int(x)` on a float that is a whole number (exact division). -/
def DecReal.intVal (v : DecReal) : Int := v.num / (10 : Int) ^ v.shift

/-- The closed set of per-row rejection reasons.  Each constructor stands
for one `raise ValueError(...)` site of the sources; the spec's names are
used (`EmptyIdentifier`, `MalformedIdentifier`, `DuplicateIdentifier`,
`NotFound`, `TypeMismatch`, `InvalidChoice`). -/
inductive Rejection where
  | emptyId
  | malformedId (msg : String)
  | duplicateId (id : String)
  | notFound
  | typeMismatch (col val : String)
  | invalidChoice (tok col : String)
deriving DecidableEq

/-- One entry of `field_constraints`: the declared select kind and the
allowed-choice list (`src/clone_feature.py` lines 92-97,
`src/update_feature.py` lines 86-91). -/
structure FieldConstraint where
  ctype : Option String
  allowed : List String
deriving DecidableEq

/-- Python `s.split()` (split on whitespace runs, dropping empty pieces). -/
def pySplitWs (s : String) : List String :=
  (pySplit s Char.isWhitespace).filter (fun t => t ≠ "")

/-- Tokenization `[s.strip() for s in str_val.replace(',', ' ').split()]`
(`src/clone_feature.py` line 210, `src/update_feature.py` line 197). -/
def splitTokens (s : String) : List String :=
  (pySplitWs (pyReplaceComma s)).map pyStrip

/-- The per-type coercion chain of the generators: the `integer` /
`decimal` / `date` branches (`src/clone_feature.py` lines 176-198,
`src/update_feature.py` lines 160-184).  `dp` is the abstract
`pd.to_datetime` parser.  Note: the source computes
`pd.to_datetime(str_val).strftime('%Y-%m-%d')` and discards the result, so
the `date` branch returns the raw (trimmed) value on success. -/
def typeCheck (dp : String → Option (Nat × Nat × Nat)) (ft : Option String)
    (col s : String) : Except Rejection String :=
  if ft == some "integer" then
    match parseFloat s with
    | none => .error (.typeMismatch col s)
    | some v =>
      if v.isWhole then .ok (toString v.intVal) else .error (.typeMismatch col s)
  else if ft == some "decimal" then
    match parseFloat s with
    | none => .error (.typeMismatch col s)
    | some _ => .ok s
  else if ft == some "date" then
    match dp s with
    | none => .error (.typeMismatch col s)
    | some _ => .ok s
  else .ok s

/-- The select-one / select-multiple constraint chain
(`src/clone_feature.py` lines 200-214, `src/update_feature.py` lines
186-201). -/
def constraintCheck (cns : Option FieldConstraint) (col s : String) :
    Except Rejection String :=
  match cns with
  | none => .ok s
  | some c =>
    if c.ctype == some "select_one" then
      if s ∈ c.allowed then .ok s else .error (.invalidChoice s col)
    else if c.ctype == some "select_multiple" then
      let toks := splitTokens s
      match toks.find? (fun t => decide (t ∉ c.allowed)) with
      | some t => .error (.invalidChoice t col)
      | none => .ok (" ".intercalate toks)
    else .ok s

/-- Full coercion of one non-empty cell: type branch then constraint
branch, as executed in sequence by both generators. -/
def coerceCell (dp : String → Option (Nat × Nat × Nat)) (ft : Option String)
    (cns : Option FieldConstraint) (col s : String) : Except Rejection String :=
  match typeCheck dp ft col s with
  | .error r => .error r
  | .ok s2 => constraintCheck cns col s2

/-- One table row: column name → cell.  `none` models a pandas NaN (a
missing cell); `some s` models a cell whose `str(val)` is `s`.  Looking up
an absent column also yields `none`, as `row.get` does. -/
structure Row where
  cells : List (String × Option String)
deriving DecidableEq

/-- Cell lookup `row.get(col)` / `row[col]` combined with `pd.isna`: `none`
iff the cell is missing or NaN. -/
def Row.get (r : Row) (c : String) : Option String :=
  (r.cells.find? (fun p => p.1 == c)).bind (fun p => p.2)

/-- The inputs of the per-row validation loop that are fixed for a run:
the date parser, `valid_fields` (column → xml path, in column order),
`field_types` and `field_constraints`. -/
structure ValCtx where
  dp : String → Option (Nat × Nat × Nat)
  valid_fields : List (String × String)
  field_types : List (String × Option String)
  field_constraints : List (String × FieldConstraint)

/-- The `for csv_col, xml_path in valid_fields.items()` loop building
`data_payload` (`src/clone_feature.py` lines 169-216,
`src/update_feature.py` lines 150-203): NaN cells are skipped, non-empty
cells are stripped, coerced and stored under their xml path. -/
def buildPayloadAux (ctx : ValCtx) (row : Row) :
    List (String × String) → List (String × String) →
    Except Rejection (List (String × String))
  | [], acc => .ok acc
  | (col, path) :: rest, acc =>
    match row.get col with
    | none => buildPayloadAux ctx row rest acc
    | some v =>
      let s := pyStrip v
      let ft := (dget ctx.field_types path).getD (some "text")
      match coerceCell ctx.dp ft (dget ctx.field_constraints path) col s with
      | .error r => .error r
      | .ok v2 => buildPayloadAux ctx row rest (dinsert acc path v2)

/-- The values treated as an empty identifier
(`sub_id.lower() in ['nan', 'null', 'none']`). -/
def emptyTokens : List String := ["nan", "null", "none"]

/-- The value `str(raw_id).split('.')[0].strip() if pd.notna(raw_id) else ""`. -/
def subIdOf (row : Row) : String :=
  match row.get "_id" with
  | some v => normalizeId v
  | none => ""

/-- The value `str(row.get('_id')).split('.')[0] if pd.notna(...) else
"unknown"` — the identifier used in rejection detail messages (note: no
`strip()` here). -/
def rawIdStr (row : Row) : String :=
  match row.get "_id" with
  | some v => ⟨truncAtDot v.data⟩
  | none => "unknown"

/-- Identifier validation of the clone generator
(`src/clone_feature.py` lines 146-166): only performed when the table has
an `_id` column; empty check, shape check, then duplicate check against
the existence snapshot. -/
def cloneIdCheck (has_id : Bool) (existing_ids : List String) (row : Row) :
    Except Rejection Unit :=
  if has_id then
    let sub_id := subIdOf row
    if sub_id = "" ∨ pyLower sub_id ∈ emptyTokens then .error .emptyId
    else
      match validate_kobo_id sub_id with
      | .error m => .error (.malformedId m)
      | .ok _ =>
        if sub_id ∈ existing_ids then .error (.duplicateId sub_id) else .ok ()
  else .ok ()

/-- The whole `try`-protected validation of one clone row, up to (but not
including) the empty-payload test. -/
def cloneRowCheck (ctx : ValCtx) (has_id : Bool) (existing_ids : List String)
    (row : Row) : Except Rejection (List (String × String)) :=
  match cloneIdCheck has_id existing_ids row with
  | .error r => .error r
  | .ok _ => buildPayloadAux ctx row ctx.valid_fields []

/-- The whole `try`-protected validation of one update row
(`src/update_feature.py` lines 128-203): empty check, shape check,
existence (not-found) check, then field coercion. -/
def updateRowCheck (ctx : ValCtx) (existing_ids : List String) (row : Row) :
    Except Rejection (List (String × String)) :=
  let sub_id := subIdOf row
  if sub_id = "" ∨ pyLower sub_id ∈ emptyTokens then .error .emptyId
  else
    match validate_kobo_id sub_id with
    | .error m => .error (.malformedId m)
    | .ok _ =>
      if sub_id ∉ existing_ids then .error .notFound
      else buildPayloadAux ctx row ctx.valid_fields []

/-- The existence snapshot of the clone generator
(`src/clone_feature.py` lines 131-136): `existing_ids` starts empty and
the listing endpoint is consulted only when the table has an `_id`
column.  `fetched` stands for the identifiers the endpoint would return. -/
def cloneExistingIds (has_id : Bool) (fetched : List String) : List String :=
  if has_id then fetched else []

/-- One survey field declaration as read from the asset JSON: the
`'type'`, `'name'` and `'select_from_list_name'` keys (each possibly
absent). -/
structure SurveyItem where
  qtype : Option String
  qname : Option String
  select_from_list_name : Option String
deriving DecidableEq

/-- One choice-list entry: the `'list_name'` and `'name'` keys. -/
structure ChoiceRow where
  list_name : Option String
  cname : Option String
deriving DecidableEq

/-- The `choice_map` construction (`src/clone_feature.py` lines 65-69,
`src/update_feature.py` lines 60-64): group `str(c.get('name'))` values by
`c.get('list_name')` in document order. -/
def appendChoice : List (Option String × List String) → Option String → String →
    List (Option String × List String)
  | [], k, v => [(k, [v])]
  | (k', vs) :: t, k, v =>
    if k' == k then (k', vs ++ [v]) :: t else (k', vs) :: appendChoice t k v

def buildChoiceMap (cs : List ChoiceRow) : List (Option String × List String) :=
  cs.foldl (fun m c => appendChoice m c.list_name (pyStr c.cname)) []

/-- Lookup `choice_map.get(list_name, [])`. -/
def choiceGet (m : List (Option String × List String)) (k : Option String) :
    List String :=
  match m.find? (fun p => p.1 == k) with
  | some p => p.2
  | none => []

/-- The mutable state of the path-mapping loop. -/
structure IndexState where
  path_map : List (String × String)
  field_types : List (String × Option String)
  field_constraints : List (String × FieldConstraint)
  group_stack : List String
deriving DecidableEq

def IndexState.init : IndexState := ⟨[], [], [], []⟩

/-- The `excluded_types` of the clone feature (`src/clone_feature.py` line 76). -/
def cloneExcludedTypes : List String :=
  ["begin_group", "end_group", "calculate", "note", "deviceid"]

/-- The `excluded_types` of the update feature (`src/update_feature.py` line 71). -/
def updateExcludedTypes : List String :=
  ["begin_group", "end_group", "calculate", "start", "end", "note", "deviceid"]

/-- The guard `i_type not in excluded_types and i_name` selecting an
indexable leaf (an absent type is not in the list; an absent or empty name
is falsy). -/
def isLeaf (excluded : List String) (it : SurveyItem) : Bool :=
  !(excluded.map some).contains it.qtype &&
    (match it.qname with | some n => n ≠ "" | none => false)

/-- Shared tail of both index steps: record the leaf's type and, for
select kinds, its constraint. -/
def recordTypeAndConstraint (choice_map : List (Option String × List String))
    (it : SurveyItem) (full_path : String) (st : IndexState)
    (pm : List (String × String)) : IndexState :=
  let ftys := dinsert st.field_types full_path it.qtype
  if it.qtype == some "select_one" ∨ it.qtype == some "select_multiple" then
    ⟨pm, ftys,
      dinsert st.field_constraints full_path
        ⟨it.qtype, choiceGet choice_map it.select_from_list_name⟩,
      st.group_stack⟩
  else ⟨pm, ftys, st.field_constraints, st.group_stack⟩

/-- One iteration of the clone path-mapping loop
(`src/clone_feature.py` lines 80-97).  For a leaf, BOTH the lower-cased
leaf name and the lower-cased full path are registered in `path_map`. -/
def cloneIndexStep (choice_map : List (Option String × List String))
    (st : IndexState) (it : SurveyItem) : IndexState :=
  if it.qtype == some "begin_group" then
    ⟨st.path_map, st.field_types, st.field_constraints,
      st.group_stack ++ [pyStr it.qname]⟩
  else if it.qtype == some "end_group" then
    ⟨st.path_map, st.field_types, st.field_constraints, st.group_stack.dropLast⟩
  else if isLeaf cloneExcludedTypes it then
    let n := pyStr it.qname
    let full_path := "/".intercalate (st.group_stack ++ [n])
    let pm := dinsert (dinsert st.path_map (pyLower n) full_path)
      (pyLower full_path) full_path
    recordTypeAndConstraint choice_map it full_path st pm
  else st

/-- One iteration of the update path-mapping loop
(`src/update_feature.py` lines 73-91).  For a leaf, ONLY the lower-cased
full path is registered in `path_map`. -/
def updateIndexStep (choice_map : List (Option String × List String))
    (st : IndexState) (it : SurveyItem) : IndexState :=
  if it.qtype == some "begin_group" then
    ⟨st.path_map, st.field_types, st.field_constraints,
      st.group_stack ++ [pyStr it.qname]⟩
  else if it.qtype == some "end_group" then
    ⟨st.path_map, st.field_types, st.field_constraints, st.group_stack.dropLast⟩
  else if isLeaf updateExcludedTypes it then
    let n := pyStr it.qname
    let full_path := "/".intercalate (st.group_stack ++ [n])
    let pm := dinsert st.path_map (pyLower full_path) full_path
    recordTypeAndConstraint choice_map it full_path st pm
  else st

/-- The whole clone path-mapping loop. -/
def cloneBuildIndex (choices : List ChoiceRow) (survey : List SurveyItem) :
    IndexState :=
  survey.foldl (cloneIndexStep (buildChoiceMap choices)) IndexState.init

/-- The whole update path-mapping loop. -/
def updateBuildIndex (choices : List ChoiceRow) (survey : List SurveyItem) :
    IndexState :=
  survey.foldl (updateIndexStep (buildChoiceMap choices)) IndexState.init

/-- One entry of `invalid_records_details`: either the tagged message
`f"ID {raw_id_str}: {e}"` appended for every rejection, or the plain
`str(e)` appended additionally in preview mode. -/
inductive Detail where
  | tagged (raw_id : String) (r : Rejection)
  | plain (r : Rejection)
deriving DecidableEq

/-- The outcome of one per-row remote write (`client.post` /
`client.patch`): an HTTP status code, or a transport-level exception. -/
inductive WriteRes where
  | status (code : Nat)
  | exn
deriving DecidableEq

/-- How the row loop ended: ran off the end of the table, `break` (preview
halt), `return` (empty payload), or an uncaught exception from a write. -/
inductive LoopEnd where
  | finished
  | broke
  | returned
  | aborted
deriving DecidableEq

/-- How the whole stream ended.  `completed` means the terminal success
event was emitted (after `finished` or `broke`); `earlyReturn` models the
bare `return` of the empty-payload branch; `aborted` models an uncaught
exception. -/
inductive StreamEnd where
  | completed
  | earlyReturn
  | aborted
deriving DecidableEq

/-- The result of one iteration of the row loop: continue to the next row
(after emitting `evs`), or leave the loop. -/
inductive StepRes (Ev St : Type) where
  | cont (evs : List Ev) (st : St)
  | halt (evs : List Ev) (st : St) (e : LoopEnd)

/-- The loop skeleton shared by both generators: run the loop body on each
numbered row, concatenating emitted events, until the body leaves the
loop or the table is exhausted. -/
def runLoop {Ev St : Type} (step : Nat → Row → St → StepRes Ev St) :
    List (Nat × Row) → St → List Ev × St × LoopEnd
  | [], st => ([], st, .finished)
  | (pc, row) :: rest, st =>
    match step pc row st with
    | .halt evs st2 e => (evs, st2, e)
    | .cont evs st2 =>
      let r := runLoop step rest st2
      (evs ++ r.1, r.2.1, r.2.2)

/-- The stream events of the clone generator (message strings are carried
as their variable parts). -/
inductive CloneEvent where
  | warnNoData (current total : Nat) (is_valid : Bool)
  | warnReject (current total : Nat) (is_valid : Bool) (raw_id : String) (r : Rejection)
  | progress (total current : Nat) (is_valid : Bool)
  | success (synced dups invalids : Nat) (err_detail : List Detail)
deriving DecidableEq

/-- The mutable counters of the clone generator. -/
structure CloneSt where
  success_count : Nat
  duplicate_id_count : Nat
  progress_count : Nat
  invalid_id_count : Nat
  details : List Detail
deriving DecidableEq

def CloneSt.init : CloneSt := ⟨0, 0, 0, 0, []⟩

def CloneSt.bumpSuccess (s : CloneSt) : CloneSt :=
  ⟨s.success_count + 1, s.duplicate_id_count, s.progress_count,
    s.invalid_id_count, s.details⟩

def CloneSt.bumpProgress (s : CloneSt) : CloneSt :=
  ⟨s.success_count, s.duplicate_id_count, s.progress_count + 1,
    s.invalid_id_count, s.details⟩

def CloneSt.addDetail (s : CloneSt) (d : Detail) : CloneSt :=
  ⟨s.success_count, s.duplicate_id_count, s.progress_count,
    s.invalid_id_count, s.details ++ [d]⟩

/-- The counter increments performed at the raise sites
(`invalid_id_count` for empty/malformed ids, `duplicate_id_count` for
duplicates). -/
def cloneCountReject (r : Rejection) (s : CloneSt) : CloneSt :=
  match r with
  | .emptyId => ⟨s.success_count, s.duplicate_id_count, s.progress_count,
      s.invalid_id_count + 1, s.details⟩
  | .malformedId _ => ⟨s.success_count, s.duplicate_id_count, s.progress_count,
      s.invalid_id_count + 1, s.details⟩
  | .duplicateId _ => ⟨s.success_count, s.duplicate_id_count + 1,
      s.progress_count, s.invalid_id_count, s.details⟩
  | _ => s

/-- The body of the clone row loop (`src/clone_feature.py` lines
138-269), one row at a time.  `pc` is `processed_count = idx + 1`;
`oracle pc` is the outcome of the `client.post` for that row. -/
def cloneStep (ctx : ValCtx) (has_id : Bool) (existing_ids : List String)
    (is_confirmed : Bool) (skip_until total : Nat) (oracle : Nat → WriteRes)
    (pc : Nat) (row : Row) (st : CloneSt) : StepRes CloneEvent CloneSt :=
  let is_valid := !is_confirmed && pc == total
  if !is_confirmed && pc ≤ skip_until then .cont [] st
  else
    match cloneRowCheck ctx has_id existing_ids row with
    | .error r =>
      let st1 := (cloneCountReject r st).addDetail (.tagged (rawIdStr row) r)
      if !is_confirmed then
        .halt [.warnReject pc total is_valid (rawIdStr row) r]
          (st1.addDetail (.plain r)) .broke
      else .cont [] st1
    | .ok payload =>
      if payload.isEmpty then
        .halt [.warnNoData pc total is_valid] st .returned
      else
        let pr : List CloneEvent × CloneSt :=
          if is_confirmed || is_valid then
            ([.progress total (st.progress_count + 1) is_valid], st.bumpProgress)
          else ([], st)
        if is_confirmed then
          match oracle pc with
          | .exn => .halt pr.1 pr.2 .aborted
          | .status c =>
            .cont pr.1
              (if c = 200 ∨ c = 201 ∨ c = 202 then pr.2.bumpSuccess else pr.2)
        else .cont pr.1 pr.2

/-- The whole clone generator (`src/clone_feature.py` lines 106-277): run
the row loop over the numbered rows and, unless the loop returned early or
an exception escaped, emit the terminal success event. -/
def cloneGenerate (ctx : ValCtx) (has_id : Bool) (existing_ids : List String)
    (is_confirmed : Bool) (skip_until : Nat) (oracle : Nat → WriteRes)
    (rows : List Row) : List CloneEvent × CloneSt × StreamEnd :=
  let total := rows.length
  let r := runLoop
    (cloneStep ctx has_id existing_ids is_confirmed skip_until total oracle)
    (List.enumFrom 1 rows) CloneSt.init
  match r.2.2 with
  | .returned => (r.1, r.2.1, .earlyReturn)
  | .aborted => (r.1, r.2.1, .aborted)
  | _ => (r.1 ++ [.success r.2.1.success_count r.2.1.duplicate_id_count
      r.2.1.invalid_id_count r.2.1.details], r.2.1, .completed)

/-- The stream events of the update generator. -/
inductive UpdateEvent where
  | warnNoData (current total : Nat) (is_valid : Bool)
  | warnReject (current total : Nat) (is_valid : Bool) (raw_id : String) (r : Rejection)
  | progress (total current : Nat) (is_valid : Bool)
  | success (updated notFound invalids : Nat) (err_detail : List Detail)
deriving DecidableEq

/-- The mutable counters of the update generator. -/
structure UpdateSt where
  updated_count : Nat
  progress_count : Nat
  invalid_ids_count : Nat
  not_found_count : Nat
  details : List Detail
deriving DecidableEq

def UpdateSt.init : UpdateSt := ⟨0, 0, 0, 0, []⟩

def UpdateSt.bumpUpdated (s : UpdateSt) : UpdateSt :=
  ⟨s.updated_count + 1, s.progress_count, s.invalid_ids_count,
    s.not_found_count, s.details⟩

def UpdateSt.bumpProgress (s : UpdateSt) : UpdateSt :=
  ⟨s.updated_count, s.progress_count + 1, s.invalid_ids_count,
    s.not_found_count, s.details⟩

def UpdateSt.addDetail (s : UpdateSt) (d : Detail) : UpdateSt :=
  ⟨s.updated_count, s.progress_count, s.invalid_ids_count,
    s.not_found_count, s.details ++ [d]⟩

/-- The counter increments performed at the raise sites
(`invalid_ids_count` for empty/malformed ids, `not_found_count` for
missing ids). -/
def updateCountReject (r : Rejection) (s : UpdateSt) : UpdateSt :=
  match r with
  | .emptyId => ⟨s.updated_count, s.progress_count, s.invalid_ids_count + 1,
      s.not_found_count, s.details⟩
  | .malformedId _ => ⟨s.updated_count, s.progress_count,
      s.invalid_ids_count + 1, s.not_found_count, s.details⟩
  | .notFound => ⟨s.updated_count, s.progress_count, s.invalid_ids_count,
      s.not_found_count + 1, s.details⟩
  | _ => s

/-- The body of the update row loop (`src/update_feature.py` lines
121-249); `oracle pc` is the outcome of the `client.patch` for that row
(update counts statuses 200 and 201 as success). -/
def updateStep (ctx : ValCtx) (existing_ids : List String)
    (is_confirmed : Bool) (skip_until total : Nat) (oracle : Nat → WriteRes)
    (pc : Nat) (row : Row) (st : UpdateSt) : StepRes UpdateEvent UpdateSt :=
  let is_valid := !is_confirmed && pc == total
  if !is_confirmed && pc ≤ skip_until then .cont [] st
  else
    match updateRowCheck ctx existing_ids row with
    | .error r =>
      let st1 := (updateCountReject r st).addDetail (.tagged (rawIdStr row) r)
      if !is_confirmed then
        .halt [.warnReject pc total is_valid (rawIdStr row) r]
          (st1.addDetail (.plain r)) .broke
      else .cont [] st1
    | .ok payload =>
      if payload.isEmpty then
        .halt [.warnNoData pc total is_valid] st .returned
      else
        let pr : List UpdateEvent × UpdateSt :=
          if is_confirmed || is_valid then
            ([.progress total (st.progress_count + 1) is_valid], st.bumpProgress)
          else ([], st)
        if is_confirmed then
          match oracle pc with
          | .exn => .halt pr.1 pr.2 .aborted
          | .status c =>
            .cont pr.1 (if c = 200 ∨ c = 201 then pr.2.bumpUpdated else pr.2)
        else .cont pr.1 pr.2

/-- The whole update generator (`src/update_feature.py` lines 109-257). -/
def updateGenerate (ctx : ValCtx) (existing_ids : List String)
    (is_confirmed : Bool) (skip_until : Nat) (oracle : Nat → WriteRes)
    (rows : List Row) : List UpdateEvent × UpdateSt × StreamEnd :=
  let total := rows.length
  let r := runLoop
    (updateStep ctx existing_ids is_confirmed skip_until total oracle)
    (List.enumFrom 1 rows) UpdateSt.init
  match r.2.2 with
  | .returned => (r.1, r.2.1, .earlyReturn)
  | .aborted => (r.1, r.2.1, .aborted)
  | _ => (r.1 ++ [.success r.2.1.updated_count r.2.1.not_found_count
      r.2.1.invalid_ids_count r.2.1.details], r.2.1, .completed)

/-- Success-event discriminator for clone streams. -/
def isSuccessEvC : CloneEvent → Bool
  | .success _ _ _ _ => true
  | _ => false

/-- Success-event discriminator for update streams. -/
def isSuccessEvU : UpdateEvent → Bool
  | .success _ _ _ _ => true
  | _ => false

/-- A date parser that always fails; used to instantiate theorems whose
statements do not depend on the date branch. -/
def dp0 : String → Option (Nat × Nat × Nat) := fun _ => none

/-- Numeric `Y<sep>M<sep>D` parsing. -/
def parseYMD (sep : Char) (s : String) : Option (Nat × Nat × Nat) :=
  match (pySplit s (fun c => c = sep)).map pyToNat with
  | [some y, some m, some d] =>
    if 1 ≤ m ∧ m ≤ 12 ∧ 1 ≤ d ∧ d ≤ 31 then some (y, m, d) else none
  | _ => none

/-- A concrete stand-in for the external `pd.to_datetime`: parses numeric
dash- or slash-separated calendar dates.  `pd.to_datetime` succeeds on all
such inputs, which is all the date-branch theorems below rely on. -/
def pdToDatetimeModel (s : String) : Option (Nat × Nat × Nat) :=
  match parseYMD '-' s with
  | some r => some r
  | none => parseYMD '/' s

/-- The events emitted by one loop iteration. -/
def StepRes.events {Ev St : Type} : StepRes Ev St → List Ev
  | .cont evs _ => evs
  | .halt evs _ _ => evs

/-- Lock-step correspondence of two loop-iteration results under a state
relation `R`: same events, same exit, related states. -/
def StepMatch {Ev St : Type} (R : St → St → Prop) :
    StepRes Ev St → StepRes Ev St → Prop
  | .cont e1 s1, .cont e2 s2 => e1 = e2 ∧ R s1 s2
  | .halt e1 s1 x1, .halt e2 s2 x2 => e1 = e2 ∧ x1 = x2 ∧ R s1 s2
  | _, _ => False

/-- Rejections that can arise from field coercion (as opposed to
identifier validation). -/
def isFieldRejection : Rejection → Bool
  | .typeMismatch _ _ => true
  | .invalidChoice _ _ => true
  | _ => false

/-- Everything of a clone state except `success_count`. -/
def CloneSt.shadow (s : CloneSt) : Nat × Nat × Nat × List Detail :=
  (s.duplicate_id_count, s.progress_count, s.invalid_id_count, s.details)

/-- Everything of an update state except `updated_count`. -/
def UpdateSt.shadow (s : UpdateSt) : Nat × Nat × Nat × List Detail :=
  (s.progress_count, s.invalid_ids_count, s.not_found_count, s.details)

/-- The tagged detail messages produced by running the mode-independent
clone row validator over a table, in row order. -/
def cloneRejectionLog (ctx : ValCtx) (has_id : Bool)
    (existing_ids : List String) (rows : List Row) : List Detail :=
  rows.filterMap (fun row =>
    match cloneRowCheck ctx has_id existing_ids row with
    | .error r => some (.tagged (rawIdStr row) r)
    | .ok _ => none)

/-- The tagged detail messages produced by running the mode-independent
update row validator over a table, in row order. -/
def updateRejectionLog (ctx : ValCtx) (existing_ids : List String)
    (rows : List Row) : List Detail :=
  rows.filterMap (fun row =>
    match updateRowCheck ctx existing_ids row with
    | .error r => some (.tagged (rawIdStr row) r)
    | .ok _ => none)

/-! Concrete fixtures used by counterexamples and witnesses -/

/-- A context with one text column `c`. -/
def ctx0 : ValCtx := ⟨dp0, [("c", "c")], [("c", some "text")], []⟩

/-- A context with one integer column `c`. -/
def ctxInt : ValCtx := ⟨dp0, [("c", "c")], [("c", some "integer")], []⟩

/-- A row whose only cell is `c = "x"`. -/
def rowX : Row := ⟨[("c", some "x")]⟩

/-- A row whose only cell `c` is NaN. -/
def rowNaN : Row := ⟨[("c", none)]⟩

/-- A row with a valid 7-digit `_id` and a text cell. -/
def rowU : Row := ⟨[("_id", some "1234567"), ("c", some "x")]⟩

/-- A row with a valid 7-digit `_id` whose only data cell is NaN. -/
def rowUNaN : Row := ⟨[("_id", some "1234567"), ("c", none)]⟩

/-- An existence snapshot containing the fixture identifier. -/
def ids0 : List String := ["1234567"]

/-- A remote that always answers 201. -/
def oracle201 : Nat → WriteRes := fun _ => .status 201

/-- A remote that raises a transport exception on row 1 and answers 201
afterwards. -/
def oracleExnAt1 : Nat → WriteRes := fun pc => if pc = 1 then .exn else .status 201

/-- A survey with one group `g` containing one text leaf `q`. -/
def surveyGQ : List SurveyItem :=
  [⟨some "begin_group", some "g", none⟩,
   ⟨some "text", some "q", none⟩,
   ⟨some "end_group", none, none⟩]

/-! Supporting lemmas -/

-- sanity examples for the embedding of `float`
theorem parseFloat_ten : parseFloat "10.0" = some ⟨100, 1⟩ := by decide
theorem parseFloat_half : parseFloat "10.5" = some ⟨105, 1⟩ := by decide
theorem parseFloat_bad : parseFloat "abc" = none := by decide
theorem parseFloat_half_not_whole : (DecReal.isWhole ⟨105, 1⟩) = false := by decide

theorem dropWhile_dropWhile (p : Char → Bool) (l : List Char) :
    (l.dropWhile p).dropWhile p = l.dropWhile p := by
  induction l with
  | nil => rfl
  | cons c cs ih =>
    by_cases h : p c
    · simp only [List.dropWhile_cons, h, if_true]
      exact ih
    · simp only [List.dropWhile_cons, h, if_false, Bool.false_eq_true]

theorem dropWhile_append_singleton (p : Char → Bool) (a : Char)
    (h : p a = false) (l : List Char) :
    (l ++ [a]).dropWhile p = l.dropWhile p ++ [a] := by
  induction l with
  | nil => simp [List.dropWhile_cons, h]
  | cons c cs ih =>
    by_cases hc : p c
    · simp only [List.cons_append, List.dropWhile_cons, hc, if_true]
      exact ih
    · simp only [List.cons_append, List.dropWhile_cons, hc, if_false,
        Bool.false_eq_true]

theorem not_mem_truncAtDot (l : List Char) : '.' ∉ truncAtDot l := by
  induction l with
  | nil => simp [truncAtDot]
  | cons c cs ih =>
    by_cases h : c = '.'
    · simp [truncAtDot, h]
    · intro hmem
      rw [truncAtDot, if_neg h] at hmem
      rcases List.mem_cons.mp hmem with h1 | h1
      · exact h h1.symm
      · exact ih h1

theorem truncAtDot_eq_self {l : List Char} (h : '.' ∉ l) : truncAtDot l = l := by
  induction l with
  | nil => rfl
  | cons c cs ih =>
    have hc : ¬ c = '.' := fun hc => h (by rw [hc]; exact List.mem_cons_self _ _)
    have hcs : '.' ∉ cs := fun hm => h (List.mem_cons_of_mem _ hm)
    rw [truncAtDot, if_neg hc, ih hcs]

theorem mem_of_mem_trimChars {a : Char} {l : List Char}
    (h : a ∈ trimChars l) : a ∈ l := by
  unfold trimChars dropTrailingWs at h
  rw [List.mem_reverse] at h
  have h2 := (List.dropWhile_sublist Char.isWhitespace).mem h
  rw [List.mem_reverse] at h2
  exact (List.dropWhile_sublist Char.isWhitespace).mem h2

theorem dropTrailingWs_dropTrailingWs (m : List Char) :
    dropTrailingWs (dropTrailingWs m) = dropTrailingWs m := by
  unfold dropTrailingWs
  rw [List.reverse_reverse, dropWhile_dropWhile]

theorem dropWhile_dropTrailingWs {m : List Char}
    (h : m.dropWhile Char.isWhitespace = m) :
    (dropTrailingWs m).dropWhile Char.isWhitespace = dropTrailingWs m := by
  cases m with
  | nil => rfl
  | cons c cs =>
    have hw : Char.isWhitespace c = false := by
      by_contra hcon
      rw [Bool.not_eq_false] at hcon
      rw [List.dropWhile_cons, if_pos hcon] at h
      have hsub : List.Sublist (cs.dropWhile Char.isWhitespace) cs :=
        List.dropWhile_sublist Char.isWhitespace
      have hle := hsub.length_le
      have h2 : (cs.dropWhile Char.isWhitespace).length = cs.length + 1 := by
        rw [h]; rfl
      omega
    have hrw : dropTrailingWs (c :: cs) =
        c :: (cs.reverse.dropWhile Char.isWhitespace).reverse := by
      unfold dropTrailingWs
      rw [show (c :: cs).reverse = cs.reverse ++ [c] by simp,
        dropWhile_append_singleton Char.isWhitespace c hw]
      simp
    rw [hrw, List.dropWhile_cons, if_neg (by rw [hw]; exact Bool.false_ne_true)]

theorem trimChars_trimChars (l : List Char) :
    trimChars (trimChars l) = trimChars l := by
  have hm := dropWhile_dropWhile Char.isWhitespace l
  show dropTrailingWs ((dropTrailingWs (l.dropWhile Char.isWhitespace)).dropWhile
    Char.isWhitespace) = trimChars l
  rw [dropWhile_dropTrailingWs hm, dropTrailingWs_dropTrailingWs]
  rfl

/-- C9: identifier normalization (truncate at the first decimal point, then
trim surrounding whitespace) is idempotent: normalizing the result of
normalizing any string yields the same value as normalizing it once. -/
theorem normalizeId_idempotent (s : String) :
    normalizeId (normalizeId s) = normalizeId s := by
  unfold normalizeId
  have hdata : (String.mk (trimChars (truncAtDot s.data))).data =
      trimChars (truncAtDot s.data) := rfl
  rw [hdata]
  have hnd : '.' ∉ trimChars (truncAtDot s.data) := fun hmem =>
    not_mem_truncAtDot s.data (mem_of_mem_trimChars hmem)
  rw [truncAtDot_eq_self hnd, trimChars_trimChars]

/-- On any cell whose date parse succeeds, the date branch returns the raw
trimmed value unchanged: the source computes
`pd.to_datetime(str_val).strftime('%Y-%m-%d')` and throws the result away. -/
theorem date_branch_keeps_raw_value (dp : String → Option (Nat × Nat × Nat))
    (col s : String) (v : Nat × Nat × Nat) (h : dp s = some v) :
    coerceCell dp (some "date") none col s = .ok s := by
  unfold coerceCell typeCheck
  rw [if_neg (by decide), if_neg (by decide), if_pos (by decide), h]
  rfl

/-- C6: identifier-shape validation (`validate_kobo_id`) accepts a
normalized identifier string if and only if it is non-empty, consists
solely of (ASCII decimal) digits, and its length is 7 or 8 characters;
any other string is rejected (the `MalformedIdentifier` rejection). -/
theorem kobo_id_shape_iff (v : String) :
    isAccepted (validate_kobo_id v) = true ↔
      (v.data.all Char.isDigit = true ∧ v ≠ "" ∧
        (v.length = 7 ∨ v.length = 8)) := by
  cases hemp : v.data.isEmpty with
  | true =>
    have hv : v = "" := String.ext (List.isEmpty_iff.mp hemp)
    rw [hv]
    decide
  | false =>
    have hdne : v ≠ "" := by
      intro h
      rw [h] at hemp
      simp at hemp
    cases hall : v.data.all Char.isDigit with
    | false =>
      have hpy : pyIsdigit v = false := by simp [pyIsdigit, hall]
      rw [validate_kobo_id, hpy]
      simp [isAccepted]
    | true =>
      have hpy : pyIsdigit v = true := by simp [pyIsdigit, hemp, hall]
      rw [validate_kobo_id, hpy]
      by_cases hlen : v.length < 7 ∨ 8 < v.length
      · rw [if_neg (by simp), if_pos hlen]
        constructor
        · intro h; exact absurd h (by simp [isAccepted])
        · rintro ⟨_, _, hl⟩; omega
      · rw [if_neg (by simp), if_neg hlen]
        push_neg at hlen
        constructor
        · intro _; exact ⟨rfl, hdne, by omega⟩
        · intro _; rfl

/-! Generic lemmas about the loop skeleton -/

theorem runLoop_congr {Ev St : Type} (s1 s2 : Nat → Row → St → StepRes Ev St)
    (h : ∀ pc row st, s1 pc row st = s2 pc row st) :
    ∀ (l : List (Nat × Row)) (st : St), runLoop s1 l st = runLoop s2 l st := by
  intro l
  induction l with
  | nil => intro st; rfl
  | cons pr rest ih =>
    intro st
    obtain ⟨pc, row⟩ := pr
    cases hs : s2 pc row st with
    | halt evs st2 e => simp [runLoop, h pc row st, hs]
    | cont evs st2 => simp [runLoop, h pc row st, hs, ih st2]

theorem runLoop_no_abort {Ev St : Type} (step : Nat → Row → St → StepRes Ev St)
    (h : ∀ pc row s evs s2, step pc row s ≠ .halt evs s2 .aborted) :
    ∀ (l : List (Nat × Row)) (st : St), (runLoop step l st).2.2 ≠ .aborted := by
  intro l
  induction l with
  | nil =>
    intro st hc
    exact absurd hc (by simp [runLoop])
  | cons pr rest ih =>
    intro st
    obtain ⟨pc, row⟩ := pr
    cases hs : step pc row st with
    | halt evs st2 e =>
      simp only [runLoop, hs]
      intro hc
      exact h pc row st evs st2 (hc ▸ hs)
    | cont evs st2 =>
      simp only [runLoop, hs]
      exact ih st2

theorem runLoop_all_cont {Ev St : Type} (step : Nat → Row → St → StepRes Ev St)
    (f : St → List Detail) (g : Nat → Row → Option Detail) :
    ∀ (l : List (Nat × Row)) (st : St),
      (∀ pr ∈ l, ∀ s : St, ∃ evs s2, step pr.1 pr.2 s = .cont evs s2 ∧
        f s2 = f s ++ (g pr.1 pr.2).toList) →
      (runLoop step l st).2.2 = .finished ∧
      f (runLoop step l st).2.1 = f st ++ l.filterMap (fun pr => g pr.1 pr.2) := by
  intro l
  induction l with
  | nil =>
    intro st _
    exact ⟨rfl, by simp [runLoop]⟩
  | cons pr rest ih =>
    intro st h
    obtain ⟨pc, row⟩ := pr
    obtain ⟨evs, s2, hs, hf⟩ := h (pc, row) (List.mem_cons_self _ _) st
    have hrest := fun pr hm s => h pr (List.mem_cons_of_mem _ hm) s
    obtain ⟨hend, hfin⟩ := ih s2 hrest
    refine ⟨by simp only [runLoop, hs]; exact hend, ?_⟩
    simp only [runLoop, hs]
    rw [hfin, hf]
    simp only [List.filterMap_cons]
    cases g pc row <;> simp [List.append_assoc]

theorem runLoop_filter_none {Ev St : Type} (p : Ev → Bool)
    (step : Nat → Row → St → StepRes Ev St) :
    ∀ (l : List (Nat × Row)) (st : St),
      (∀ pr ∈ l, ∀ s : St, ((step pr.1 pr.2 s).events).filter p = []) →
      ((runLoop step l st).1).filter p = [] := by
  intro l
  induction l with
  | nil =>
    intro st _
    simp [runLoop]
  | cons pr rest ih =>
    intro st h
    obtain ⟨pc, row⟩ := pr
    have hhd := h (pc, row) (List.mem_cons_self _ _) st
    have hrest := fun pr hm s => h pr (List.mem_cons_of_mem _ hm) s
    cases hs : step pc row st with
    | halt evs st2 e =>
      rw [hs] at hhd
      simp only [StepRes.events] at hhd
      simp only [runLoop, hs]
      exact hhd
    | cont evs st2 =>
      rw [hs] at hhd
      simp only [StepRes.events] at hhd
      simp only [runLoop, hs, List.filter_append]
      rw [hhd, ih st2 hrest]
      rfl

theorem runLoop_rel {Ev St : Type} (R : St → St → Prop)
    (s1 s2 : Nat → Row → St → StepRes Ev St)
    (h : ∀ pc row a b, R a b → StepMatch R (s1 pc row a) (s2 pc row b)) :
    ∀ (l : List (Nat × Row)) (a b : St), R a b →
      (runLoop s1 l a).1 = (runLoop s2 l b).1 ∧
      R (runLoop s1 l a).2.1 (runLoop s2 l b).2.1 ∧
      (runLoop s1 l a).2.2 = (runLoop s2 l b).2.2 := by
  intro l
  induction l with
  | nil =>
    intro a b hR
    exact ⟨rfl, hR, rfl⟩
  | cons pr rest ih =>
    intro a b hR
    obtain ⟨pc, row⟩ := pr
    have hm := h pc row a b hR
    cases h1 : s1 pc row a with
    | halt e1 x1 q1 =>
      cases h2 : s2 pc row b with
      | halt e2 x2 q2 =>
        rw [h1, h2] at hm
        obtain ⟨he, hq, hRx⟩ := hm
        simp only [runLoop, h1, h2]
        exact ⟨he, hRx, hq⟩
      | cont e2 x2 =>
        rw [h1, h2] at hm
        exact hm.elim
    | cont e1 x1 =>
      cases h2 : s2 pc row b with
      | halt e2 x2 q2 =>
        rw [h1, h2] at hm
        exact hm.elim
      | cont e2 x2 =>
        rw [h1, h2] at hm
        obtain ⟨he, hRx⟩ := hm
        obtain ⟨ihe, ihR, ihq⟩ := ih x1 x2 hRx
        simp only [runLoop, h1, h2]
        exact ⟨by rw [he, ihe], ihR, ihq⟩

theorem filterMap_enumFrom {β : Type} (g : Row → Option β) :
    ∀ (n : Nat) (rows : List Row),
      (List.enumFrom n rows).filterMap (fun pr => g pr.2) = rows.filterMap g := by
  intro n rows
  induction rows generalizing n with
  | nil => rfl
  | cons r rest ih =>
    simp only [List.enumFrom, List.filterMap_cons]
    cases g r <;> simp [ih]

/-! Step-level lemmas for the clone and update loops -/

theorem cloneCountReject_details (r : Rejection) (s : CloneSt) :
    (cloneCountReject r s).details = s.details := by
  cases r <;> rfl

theorem updateCountReject_details (r : Rejection) (s : UpdateSt) :
    (updateCountReject r s).details = s.details := by
  cases r <;> rfl

theorem cloneStep_exec_cursor (ctx : ValCtx) (hid : Bool) (ids : List String)
    (su total : Nat) (o : Nat → WriteRes) (pc : Nat) (row : Row) (st : CloneSt) :
    cloneStep ctx hid ids true su total o pc row st =
      cloneStep ctx hid ids true 0 total o pc row st := rfl

theorem updateStep_exec_cursor (ctx : ValCtx) (ids : List String)
    (su total : Nat) (o : Nat → WriteRes) (pc : Nat) (row : Row) (st : UpdateSt) :
    updateStep ctx ids true su total o pc row st =
      updateStep ctx ids true 0 total o pc row st := rfl

theorem cloneGenerate_cursor (ctx : ValCtx) (hid : Bool) (ids : List String)
    (su : Nat) (o : Nat → WriteRes) (rows : List Row) :
    cloneGenerate ctx hid ids true su o rows =
      cloneGenerate ctx hid ids true 0 o rows := by
  simp only [cloneGenerate]
  rw [runLoop_congr (cloneStep ctx hid ids true su rows.length o)
    (cloneStep ctx hid ids true 0 rows.length o)
    (fun pc row st => cloneStep_exec_cursor ctx hid ids su rows.length o pc row st)]

theorem updateGenerate_cursor (ctx : ValCtx) (ids : List String)
    (su : Nat) (o : Nat → WriteRes) (rows : List Row) :
    updateGenerate ctx ids true su o rows =
      updateGenerate ctx ids true 0 o rows := by
  simp only [updateGenerate]
  rw [runLoop_congr (updateStep ctx ids true su rows.length o)
    (updateStep ctx ids true 0 rows.length o)
    (fun pc row st => updateStep_exec_cursor ctx ids su rows.length o pc row st)]

theorem cloneStep_exec_cont (ctx : ValCtx) (hid : Bool) (ids : List String)
    (su total : Nat) (o : Nat → WriteRes) (hno : ∀ n, o n ≠ WriteRes.exn)
    (pc : Nat) (row : Row) (st : CloneSt)
    (hne : cloneRowCheck ctx hid ids row ≠ .ok []) :
    ∃ evs st2, cloneStep ctx hid ids true su total o pc row st = .cont evs st2 ∧
      st2.details = st.details ++
        (match cloneRowCheck ctx hid ids row with
          | .error r => some (Detail.tagged (rawIdStr row) r)
          | .ok _ => none).toList := by
  cases hrc : cloneRowCheck ctx hid ids row with
  | error r =>
    refine ⟨[], (cloneCountReject r st).addDetail (.tagged (rawIdStr row) r), ?_, ?_⟩
    · simp [cloneStep, hrc]
    · simp [CloneSt.addDetail, cloneCountReject_details]
  | ok payload =>
    have hpe : payload.isEmpty = false := by
      cases payload with
      | nil => exact absurd hrc hne
      | cons a l => rfl
    cases ho : o pc with
    | exn => exact absurd ho (hno pc)
    | status c =>
      refine ⟨[CloneEvent.progress total (st.progress_count + 1) false],
        (if c = 200 ∨ c = 201 ∨ c = 202 then st.bumpProgress.bumpSuccess
          else st.bumpProgress), ?_, ?_⟩
      · simp [cloneStep, hrc, hpe, ho]
      · by_cases hc : c = 200 ∨ c = 201 ∨ c = 202 <;>
          simp [hc, CloneSt.bumpSuccess, CloneSt.bumpProgress]

theorem updateStep_exec_cont (ctx : ValCtx) (ids : List String)
    (su total : Nat) (o : Nat → WriteRes) (hno : ∀ n, o n ≠ WriteRes.exn)
    (pc : Nat) (row : Row) (st : UpdateSt)
    (hne : updateRowCheck ctx ids row ≠ .ok []) :
    ∃ evs st2, updateStep ctx ids true su total o pc row st = .cont evs st2 ∧
      st2.details = st.details ++
        (match updateRowCheck ctx ids row with
          | .error r => some (Detail.tagged (rawIdStr row) r)
          | .ok _ => none).toList := by
  cases hrc : updateRowCheck ctx ids row with
  | error r =>
    refine ⟨[], (updateCountReject r st).addDetail (.tagged (rawIdStr row) r), ?_, ?_⟩
    · simp [updateStep, hrc]
    · simp [UpdateSt.addDetail, updateCountReject_details]
  | ok payload =>
    have hpe : payload.isEmpty = false := by
      cases payload with
      | nil => exact absurd hrc hne
      | cons a l => rfl
    cases ho : o pc with
    | exn => exact absurd ho (hno pc)
    | status c =>
      refine ⟨[UpdateEvent.progress total (st.progress_count + 1) false],
        (if c = 200 ∨ c = 201 then st.bumpProgress.bumpUpdated
          else st.bumpProgress), ?_, ?_⟩
      · simp [updateStep, hrc, hpe, ho]
      · by_cases hc : c = 200 ∨ c = 201 <;>
          simp [hc, UpdateSt.bumpUpdated, UpdateSt.bumpProgress]

theorem cloneStep_exec_no_abort (ctx : ValCtx) (hid : Bool) (ids : List String)
    (su total : Nat) (o : Nat → WriteRes) (hno : ∀ n, o n ≠ WriteRes.exn)
    (pc : Nat) (row : Row) (st : CloneSt) (evs : List CloneEvent) (st2 : CloneSt) :
    cloneStep ctx hid ids true su total o pc row st ≠ .halt evs st2 .aborted := by
  intro hstep
  cases hrc : cloneRowCheck ctx hid ids row with
  | error r => simp [cloneStep, hrc] at hstep
  | ok payload =>
    cases hpe : payload.isEmpty with
    | true => simp [cloneStep, hrc, hpe] at hstep
    | false =>
      cases ho : o pc with
      | exn => exact hno pc ho
      | status c => simp [cloneStep, hrc, hpe, ho] at hstep

theorem updateStep_exec_no_abort (ctx : ValCtx) (ids : List String)
    (su total : Nat) (o : Nat → WriteRes) (hno : ∀ n, o n ≠ WriteRes.exn)
    (pc : Nat) (row : Row) (st : UpdateSt) (evs : List UpdateEvent) (st2 : UpdateSt) :
    updateStep ctx ids true su total o pc row st ≠ .halt evs st2 .aborted := by
  intro hstep
  cases hrc : updateRowCheck ctx ids row with
  | error r => simp [updateStep, hrc] at hstep
  | ok payload =>
    cases hpe : payload.isEmpty with
    | true => simp [updateStep, hrc, hpe] at hstep
    | false =>
      cases ho : o pc with
      | exn => exact hno pc ho
      | status c => simp [updateStep, hrc, hpe, ho] at hstep

theorem cloneStep_events_no_success (ctx : ValCtx) (hid : Bool)
    (ids : List String) (conf : Bool) (su total : Nat) (o : Nat → WriteRes)
    (pc : Nat) (row : Row) (st : CloneSt) :
    ((cloneStep ctx hid ids conf su total o pc row st).events).filter
      isSuccessEvC = [] := by
  cases conf with
  | true =>
    cases hrc : cloneRowCheck ctx hid ids row with
    | error r => simp [cloneStep, hrc, StepRes.events, isSuccessEvC]
    | ok payload =>
      cases hpe : payload.isEmpty with
      | true => simp [cloneStep, hrc, hpe, StepRes.events, isSuccessEvC]
      | false =>
        cases ho : o pc with
        | exn => simp [cloneStep, hrc, hpe, ho, StepRes.events, isSuccessEvC]
        | status c =>
          by_cases hc : c = 200 ∨ c = 201 ∨ c = 202 <;>
            simp [cloneStep, hrc, hpe, ho, hc, StepRes.events, isSuccessEvC]
  | false =>
    by_cases hs : pc ≤ su
    · simp [cloneStep, hs, StepRes.events]
    · cases hrc : cloneRowCheck ctx hid ids row with
      | error r => simp [cloneStep, hs, hrc, StepRes.events, isSuccessEvC]
      | ok payload =>
        cases hpe : payload.isEmpty with
        | true => simp [cloneStep, hs, hrc, hpe, StepRes.events, isSuccessEvC]
        | false =>
          by_cases hv : pc = total
          · subst hv
            simp [cloneStep, hs, hrc, hpe, StepRes.events, isSuccessEvC]
          · simp [cloneStep, hs, hrc, hpe, hv, StepRes.events, isSuccessEvC]

theorem updateStep_events_no_success (ctx : ValCtx) (ids : List String)
    (conf : Bool) (su total : Nat) (o : Nat → WriteRes)
    (pc : Nat) (row : Row) (st : UpdateSt) :
    ((updateStep ctx ids conf su total o pc row st).events).filter
      isSuccessEvU = [] := by
  cases conf with
  | true =>
    cases hrc : updateRowCheck ctx ids row with
    | error r => simp [updateStep, hrc, StepRes.events, isSuccessEvU]
    | ok payload =>
      cases hpe : payload.isEmpty with
      | true => simp [updateStep, hrc, hpe, StepRes.events, isSuccessEvU]
      | false =>
        cases ho : o pc with
        | exn => simp [updateStep, hrc, hpe, ho, StepRes.events, isSuccessEvU]
        | status c =>
          by_cases hc : c = 200 ∨ c = 201 <;>
            simp [updateStep, hrc, hpe, ho, hc, StepRes.events, isSuccessEvU]
  | false =>
    by_cases hs : pc ≤ su
    · simp [updateStep, hs, StepRes.events]
    · cases hrc : updateRowCheck ctx ids row with
      | error r => simp [updateStep, hs, hrc, StepRes.events, isSuccessEvU]
      | ok payload =>
        cases hpe : payload.isEmpty with
        | true => simp [updateStep, hs, hrc, hpe, StepRes.events, isSuccessEvU]
        | false =>
          by_cases hv : pc = total
          · subst hv
            simp [updateStep, hs, hrc, hpe, StepRes.events, isSuccessEvU]
          · simp [updateStep, hs, hrc, hpe, hv, StepRes.events, isSuccessEvU]

theorem cloneStep_shadow (ctx : ValCtx) (hid : Bool) (ids : List String)
    (su total : Nat) (o1 o2 : Nat → WriteRes)
    (h1 : ∀ n, o1 n ≠ WriteRes.exn) (h2 : ∀ n, o2 n ≠ WriteRes.exn)
    (pc : Nat) (row : Row) (a b : CloneSt) (hR : a.shadow = b.shadow) :
    StepMatch (fun x y => CloneSt.shadow x = CloneSt.shadow y)
      (cloneStep ctx hid ids true su total o1 pc row a)
      (cloneStep ctx hid ids true su total o2 pc row b) := by
  obtain ⟨hdup, hprog, hinv, hdet⟩ :
      a.duplicate_id_count = b.duplicate_id_count ∧
      a.progress_count = b.progress_count ∧
      a.invalid_id_count = b.invalid_id_count ∧ a.details = b.details := by
    simpa [CloneSt.shadow, Prod.ext_iff] using hR
  cases hrc : cloneRowCheck ctx hid ids row with
  | error r =>
    simp only [cloneStep, hrc]
    refine ⟨rfl, ?_⟩
    cases r <;>
      simp [CloneSt.shadow, cloneCountReject, CloneSt.addDetail, hdup, hprog,
        hinv, hdet]
  | ok payload =>
    cases hpe : payload.isEmpty with
    | true =>
      simp only [cloneStep, hrc, hpe]
      exact ⟨rfl, rfl, hR⟩
    | false =>
      cases ho1 : o1 pc with
      | exn => exact absurd ho1 (h1 pc)
      | status c1 =>
        cases ho2 : o2 pc with
        | exn => exact absurd ho2 (h2 pc)
        | status c2 =>
          simp only [cloneStep, hrc, hpe, ho1, ho2]
          refine ⟨by simp [hprog], ?_⟩
          by_cases hc1 : c1 = 200 ∨ c1 = 201 ∨ c1 = 202 <;>
            by_cases hc2 : c2 = 200 ∨ c2 = 201 ∨ c2 = 202 <;>
              simp [hc1, hc2, CloneSt.shadow, CloneSt.bumpSuccess,
                CloneSt.bumpProgress, hdup, hprog, hinv, hdet]

theorem updateStep_shadow (ctx : ValCtx) (ids : List String)
    (su total : Nat) (o1 o2 : Nat → WriteRes)
    (h1 : ∀ n, o1 n ≠ WriteRes.exn) (h2 : ∀ n, o2 n ≠ WriteRes.exn)
    (pc : Nat) (row : Row) (a b : UpdateSt) (hR : a.shadow = b.shadow) :
    StepMatch (fun x y => UpdateSt.shadow x = UpdateSt.shadow y)
      (updateStep ctx ids true su total o1 pc row a)
      (updateStep ctx ids true su total o2 pc row b) := by
  obtain ⟨hprog, hinv, hnf, hdet⟩ :
      a.progress_count = b.progress_count ∧
      a.invalid_ids_count = b.invalid_ids_count ∧
      a.not_found_count = b.not_found_count ∧ a.details = b.details := by
    simpa [UpdateSt.shadow, Prod.ext_iff] using hR
  cases hrc : updateRowCheck ctx ids row with
  | error r =>
    simp only [updateStep, hrc]
    refine ⟨rfl, ?_⟩
    cases r <;>
      simp [UpdateSt.shadow, updateCountReject, UpdateSt.addDetail, hprog,
        hinv, hnf, hdet]
  | ok payload =>
    cases hpe : payload.isEmpty with
    | true =>
      simp only [updateStep, hrc, hpe]
      exact ⟨rfl, rfl, hR⟩
    | false =>
      cases ho1 : o1 pc with
      | exn => exact absurd ho1 (h1 pc)
      | status c1 =>
        cases ho2 : o2 pc with
        | exn => exact absurd ho2 (h2 pc)
        | status c2 =>
          simp only [updateStep, hrc, hpe, ho1, ho2]
          refine ⟨by simp [hprog], ?_⟩
          by_cases hc1 : c1 = 200 ∨ c1 = 201 <;>
            by_cases hc2 : c2 = 200 ∨ c2 = 201 <;>
              simp [hc1, hc2, UpdateSt.shadow, UpdateSt.bumpUpdated,
                UpdateSt.bumpProgress, hprog, hinv, hnf, hdet]

theorem snd_mem_of_mem_enumFrom {α : Type} :
    ∀ (n : Nat) (l : List α) (pr : Nat × α), pr ∈ List.enumFrom n l → pr.2 ∈ l := by
  intro n l
  induction l generalizing n with
  | nil => intro pr h; exact absurd h (by simp [List.enumFrom])
  | cons a rest ih =>
    intro pr h
    rcases List.mem_cons.mp h with h1 | h1
    · rw [h1]; exact List.mem_cons_self _ _
    · exact List.mem_cons_of_mem _ (ih (n + 1) pr h1)

theorem cloneGenerate_details (ctx : ValCtx) (hid : Bool) (ids : List String)
    (su : Nat) (o : Nat → WriteRes) (rows : List Row)
    (hno : ∀ n, o n ≠ WriteRes.exn)
    (hne : ∀ row ∈ rows, cloneRowCheck ctx hid ids row ≠ .ok []) :
    (cloneGenerate ctx hid ids true su o rows).2.2 = .completed ∧
    (cloneGenerate ctx hid ids true su o rows).2.1 =
      (runLoop (cloneStep ctx hid ids true su rows.length o)
        (List.enumFrom 1 rows) CloneSt.init).2.1 ∧
    (cloneGenerate ctx hid ids true su o rows).2.1.details =
      cloneRejectionLog ctx hid ids rows := by
  have hstep : ∀ pr ∈ List.enumFrom 1 rows, ∀ s : CloneSt, ∃ evs s2,
      cloneStep ctx hid ids true su rows.length o pr.1 pr.2 s = .cont evs s2 ∧
      s2.details = s.details ++
        ((fun (_ : Nat) (row : Row) =>
          match cloneRowCheck ctx hid ids row with
          | .error r => some (Detail.tagged (rawIdStr row) r)
          | .ok _ => none) pr.1 pr.2).toList := by
    intro pr hm s
    exact cloneStep_exec_cont ctx hid ids su rows.length o hno pr.1 pr.2 s
      (hne pr.2 (snd_mem_of_mem_enumFrom 1 rows pr hm))
  obtain ⟨hend, hdet⟩ := runLoop_all_cont
    (cloneStep ctx hid ids true su rows.length o) CloneSt.details
    (fun _ row => match cloneRowCheck ctx hid ids row with
      | .error r => some (Detail.tagged (rawIdStr row) r)
      | .ok _ => none)
    (List.enumFrom 1 rows) CloneSt.init hstep
  rw [filterMap_enumFrom (fun row => match cloneRowCheck ctx hid ids row with
    | .error r => some (Detail.tagged (rawIdStr row) r)
    | .ok _ => none) 1 rows] at hdet
  refine ⟨by simp [cloneGenerate, hend], by simp [cloneGenerate, hend], ?_⟩
  simp only [cloneGenerate, hend]
  simpa [CloneSt.init, cloneRejectionLog] using hdet

theorem updateGenerate_details (ctx : ValCtx) (ids : List String)
    (su : Nat) (o : Nat → WriteRes) (rows : List Row)
    (hno : ∀ n, o n ≠ WriteRes.exn)
    (hne : ∀ row ∈ rows, updateRowCheck ctx ids row ≠ .ok []) :
    (updateGenerate ctx ids true su o rows).2.2 = .completed ∧
    (updateGenerate ctx ids true su o rows).2.1 =
      (runLoop (updateStep ctx ids true su rows.length o)
        (List.enumFrom 1 rows) UpdateSt.init).2.1 ∧
    (updateGenerate ctx ids true su o rows).2.1.details =
      updateRejectionLog ctx ids rows := by
  have hstep : ∀ pr ∈ List.enumFrom 1 rows, ∀ s : UpdateSt, ∃ evs s2,
      updateStep ctx ids true su rows.length o pr.1 pr.2 s = .cont evs s2 ∧
      s2.details = s.details ++
        ((fun (_ : Nat) (row : Row) =>
          match updateRowCheck ctx ids row with
          | .error r => some (Detail.tagged (rawIdStr row) r)
          | .ok _ => none) pr.1 pr.2).toList := by
    intro pr hm s
    exact updateStep_exec_cont ctx ids su rows.length o hno pr.1 pr.2 s
      (hne pr.2 (snd_mem_of_mem_enumFrom 1 rows pr hm))
  obtain ⟨hend, hdet⟩ := runLoop_all_cont
    (updateStep ctx ids true su rows.length o) UpdateSt.details
    (fun _ row => match updateRowCheck ctx ids row with
      | .error r => some (Detail.tagged (rawIdStr row) r)
      | .ok _ => none)
    (List.enumFrom 1 rows) UpdateSt.init hstep
  rw [filterMap_enumFrom (fun row => match updateRowCheck ctx ids row with
    | .error r => some (Detail.tagged (rawIdStr row) r)
    | .ok _ => none) 1 rows] at hdet
  refine ⟨by simp [updateGenerate, hend], by simp [updateGenerate, hend], ?_⟩
  simp only [updateGenerate, hend]
  simpa [UpdateSt.init, updateRejectionLog] using hdet

/-! Claim theorems -/

/-- C1 counterexample: in execution mode (confirmation true) with a resume
cursor of 1 over a 2-row table of accepted rows, BOTH rows are submitted
(the success counters reach 2), whereas the claim says row 1 is skipped
without processing, which would leave at most one submission.  The skip
`processed_count <= skip_until` is guarded by `not is_confirmed` in both
sources, so it never fires in execution mode. -/
theorem execution_cursor_counterexample :
    (cloneGenerate ctx0 false [] true 1 oracle201 [rowX, rowX]).2.1.success_count
        = 2 ∧
      (updateGenerate ctx0 ids0 true 1 oracle201 [rowU, rowU]).2.1.updated_count
        = 2 :=
  ⟨by decide, by decide⟩

/-- C1 (amended): in execution mode the resume cursor is ignored — both the
clone and update pipelines behave identically for every cursor value,
processing all rows 1..end (rows 1..N are skipped only in preview mode);
and the per-row accept/reject decisions of the execution run are exactly
those of the mode-independent row validators, as witnessed by the
accumulated rejection details equalling the row-validator rejection log. -/
theorem execution_mode_ignores_cursor :
    (∀ (ctx : ValCtx) (hid : Bool) (ids : List String) (su : Nat)
        (o : Nat → WriteRes) (rows : List Row),
      cloneGenerate ctx hid ids true su o rows =
        cloneGenerate ctx hid ids true 0 o rows)
  ∧ (∀ (ctx : ValCtx) (ids : List String) (su : Nat)
        (o : Nat → WriteRes) (rows : List Row),
      updateGenerate ctx ids true su o rows =
        updateGenerate ctx ids true 0 o rows)
  ∧ (∀ (ctx : ValCtx) (hid : Bool) (ids : List String) (su : Nat)
        (o : Nat → WriteRes) (rows : List Row),
      (∀ n, o n ≠ WriteRes.exn) →
      (∀ row ∈ rows, cloneRowCheck ctx hid ids row ≠ .ok []) →
      (cloneGenerate ctx hid ids true su o rows).2.1.details =
        cloneRejectionLog ctx hid ids rows)
  ∧ (∀ (ctx : ValCtx) (ids : List String) (su : Nat)
        (o : Nat → WriteRes) (rows : List Row),
      (∀ n, o n ≠ WriteRes.exn) →
      (∀ row ∈ rows, updateRowCheck ctx ids row ≠ .ok []) →
      (updateGenerate ctx ids true su o rows).2.1.details =
        updateRejectionLog ctx ids rows) := by
  refine ⟨cloneGenerate_cursor, updateGenerate_cursor, ?_, ?_⟩
  · intro ctx hid ids su o rows hno hne
    exact (cloneGenerate_details ctx hid ids su o rows hno hne).2.2
  · intro ctx ids su o rows hno hne
    exact (updateGenerate_details ctx ids su o rows hno hne).2.2

/-- Witness for C1: the execution run over the one-row fixture table has
its hypotheses satisfied and its rejection details equal the validator
log. -/
theorem execution_mode_ignores_cursor_witness :
    (cloneGenerate ctx0 false [] true 5 oracle201 [rowX]).2.1.details =
      cloneRejectionLog ctx0 false [] [rowX] := by
  refine execution_mode_ignores_cursor.2.2.1 ctx0 false [] 5 oracle201 [rowX]
    (fun _ h => WriteRes.noConfusion h) ?_
  intro row hr
  rw [List.mem_singleton] at hr
  subst hr
  rw [show cloneRowCheck ctx0 false [] rowX = Except.ok [("c", "x")] from rfl]
  simp

/-- C2 counterexample: in execution mode, a first row whose accepted
payload would be empty (a `NoMappedData` rejection) terminates the stream
at once: only the warning is emitted, the second row is never processed,
and no terminal success event appears — the empty-payload branch of both
generators executes `yield warning; return`. -/
theorem no_mapped_data_halts_stream :
    cloneGenerate ctx0 false [] true 0 oracle201 [rowNaN, rowX] =
        ([CloneEvent.warnNoData 1 2 false], CloneSt.init, .earlyReturn) ∧
      updateGenerate ctx0 ids0 true 0 oracle201 [rowUNaN, rowU] =
        ([UpdateEvent.warnNoData 1 2 false], UpdateSt.init, .earlyReturn) :=
  ⟨by decide, by decide⟩

/-- C2 (amended): for every non-empty table processed in execution mode
without cancellation, every row-local rejection other than `NoMappedData`
never stops processing of subsequent rows and the stream ends with exactly
one terminal success event carrying the accumulated rejection details; a
row with an empty accepted payload (`NoMappedData`), however, terminates
the stream immediately without a terminal success event (see the
counterexample). -/
theorem row_rejections_nonfatal_single_success :
    (∀ (ctx : ValCtx) (hid : Bool) (ids : List String) (su : Nat)
        (o : Nat → WriteRes) (rows : List Row), rows ≠ [] →
      (∀ n, o n ≠ WriteRes.exn) →
      (∀ row ∈ rows, cloneRowCheck ctx hid ids row ≠ .ok []) →
      (cloneGenerate ctx hid ids true su o rows).2.2 = .completed ∧
      ((cloneGenerate ctx hid ids true su o rows).1).filter isSuccessEvC =
        [CloneEvent.success
          (cloneGenerate ctx hid ids true su o rows).2.1.success_count
          (cloneGenerate ctx hid ids true su o rows).2.1.duplicate_id_count
          (cloneGenerate ctx hid ids true su o rows).2.1.invalid_id_count
          (cloneGenerate ctx hid ids true su o rows).2.1.details])
  ∧ (∀ (ctx : ValCtx) (ids : List String) (su : Nat)
        (o : Nat → WriteRes) (rows : List Row), rows ≠ [] →
      (∀ n, o n ≠ WriteRes.exn) →
      (∀ row ∈ rows, updateRowCheck ctx ids row ≠ .ok []) →
      (updateGenerate ctx ids true su o rows).2.2 = .completed ∧
      ((updateGenerate ctx ids true su o rows).1).filter isSuccessEvU =
        [UpdateEvent.success
          (updateGenerate ctx ids true su o rows).2.1.updated_count
          (updateGenerate ctx ids true su o rows).2.1.not_found_count
          (updateGenerate ctx ids true su o rows).2.1.invalid_ids_count
          (updateGenerate ctx ids true su o rows).2.1.details]) := by
  constructor
  · intro ctx hid ids su o rows _ hno hne
    have hstep : ∀ pr ∈ List.enumFrom 1 rows, ∀ s : CloneSt, ∃ evs s2,
        cloneStep ctx hid ids true su rows.length o pr.1 pr.2 s = .cont evs s2 ∧
        s2.details = s.details ++
          ((fun (_ : Nat) (row : Row) =>
            match cloneRowCheck ctx hid ids row with
            | .error r => some (Detail.tagged (rawIdStr row) r)
            | .ok _ => none) pr.1 pr.2).toList := by
      intro pr hm s
      exact cloneStep_exec_cont ctx hid ids su rows.length o hno pr.1 pr.2 s
        (hne pr.2 (snd_mem_of_mem_enumFrom 1 rows pr hm))
    obtain ⟨hend, _⟩ := runLoop_all_cont
      (cloneStep ctx hid ids true su rows.length o) CloneSt.details
      (fun _ row => match cloneRowCheck ctx hid ids row with
        | .error r => some (Detail.tagged (rawIdStr row) r)
        | .ok _ => none)
      (List.enumFrom 1 rows) CloneSt.init hstep
    have hfl := runLoop_filter_none isSuccessEvC
      (cloneStep ctx hid ids true su rows.length o) (List.enumFrom 1 rows)
      CloneSt.init
      (fun pr _ s => cloneStep_events_no_success ctx hid ids true su
        rows.length o pr.1 pr.2 s)
    constructor
    · simp [cloneGenerate, hend]
    · simp only [cloneGenerate, hend]
      simp [List.filter_append, hfl, isSuccessEvC]
  · intro ctx ids su o rows _ hno hne
    have hstep : ∀ pr ∈ List.enumFrom 1 rows, ∀ s : UpdateSt, ∃ evs s2,
        updateStep ctx ids true su rows.length o pr.1 pr.2 s = .cont evs s2 ∧
        s2.details = s.details ++
          ((fun (_ : Nat) (row : Row) =>
            match updateRowCheck ctx ids row with
            | .error r => some (Detail.tagged (rawIdStr row) r)
            | .ok _ => none) pr.1 pr.2).toList := by
      intro pr hm s
      exact updateStep_exec_cont ctx ids su rows.length o hno pr.1 pr.2 s
        (hne pr.2 (snd_mem_of_mem_enumFrom 1 rows pr hm))
    obtain ⟨hend, _⟩ := runLoop_all_cont
      (updateStep ctx ids true su rows.length o) UpdateSt.details
      (fun _ row => match updateRowCheck ctx ids row with
        | .error r => some (Detail.tagged (rawIdStr row) r)
        | .ok _ => none)
      (List.enumFrom 1 rows) UpdateSt.init hstep
    have hfl := runLoop_filter_none isSuccessEvU
      (updateStep ctx ids true su rows.length o) (List.enumFrom 1 rows)
      UpdateSt.init
      (fun pr _ s => updateStep_events_no_success ctx ids true su
        rows.length o pr.1 pr.2 s)
    constructor
    · simp [updateGenerate, hend]
    · simp only [updateGenerate, hend]
      simp [List.filter_append, hfl, isSuccessEvU]

/-- Witness for C2: the one-row fixture run ends completed with exactly
one success event. -/
theorem row_rejections_nonfatal_single_success_witness :
    (cloneGenerate ctx0 false [] true 0 oracle201 [rowX]).2.2 = .completed ∧
    ((cloneGenerate ctx0 false [] true 0 oracle201 [rowX]).1).filter
        isSuccessEvC =
      [CloneEvent.success
        (cloneGenerate ctx0 false [] true 0 oracle201 [rowX]).2.1.success_count
        (cloneGenerate ctx0 false [] true 0 oracle201
          [rowX]).2.1.duplicate_id_count
        (cloneGenerate ctx0 false [] true 0 oracle201
          [rowX]).2.1.invalid_id_count
        (cloneGenerate ctx0 false [] true 0 oracle201 [rowX]).2.1.details] := by
  refine row_rejections_nonfatal_single_success.1 ctx0 false [] 0 oracle201
    [rowX] (by simp) (fun _ h => WriteRes.noConfusion h) ?_
  intro row hr
  rw [List.mem_singleton] at hr
  subst hr
  rw [show cloneRowCheck ctx0 false [] rowX = Except.ok [("c", "x")] from rfl]
  simp

theorem cloneGenerate_no_abort (ctx : ValCtx) (hid : Bool) (ids : List String)
    (su : Nat) (o : Nat → WriteRes) (rows : List Row)
    (hno : ∀ n, o n ≠ WriteRes.exn) :
    (cloneGenerate ctx hid ids true su o rows).2.2 ≠ .aborted := by
  have hlo := runLoop_no_abort (cloneStep ctx hid ids true su rows.length o)
    (fun pc row s evs s2 =>
      cloneStep_exec_no_abort ctx hid ids su rows.length o hno pc row s evs s2)
    (List.enumFrom 1 rows) CloneSt.init
  cases hq : (runLoop (cloneStep ctx hid ids true su rows.length o)
      (List.enumFrom 1 rows) CloneSt.init).2.2 with
  | finished => simp [cloneGenerate, hq]
  | broke => simp [cloneGenerate, hq]
  | returned => simp [cloneGenerate, hq]
  | aborted => exact absurd hq hlo

theorem updateGenerate_no_abort (ctx : ValCtx) (ids : List String)
    (su : Nat) (o : Nat → WriteRes) (rows : List Row)
    (hno : ∀ n, o n ≠ WriteRes.exn) :
    (updateGenerate ctx ids true su o rows).2.2 ≠ .aborted := by
  have hlo := runLoop_no_abort (updateStep ctx ids true su rows.length o)
    (fun pc row s evs s2 =>
      updateStep_exec_no_abort ctx ids su rows.length o hno pc row s evs s2)
    (List.enumFrom 1 rows) UpdateSt.init
  cases hq : (runLoop (updateStep ctx ids true su rows.length o)
      (List.enumFrom 1 rows) UpdateSt.init).2.2 with
  | finished => simp [updateGenerate, hq]
  | broke => simp [updateGenerate, hq]
  | returned => simp [updateGenerate, hq]
  | aborted => exact absurd hq hlo

theorem cloneGenerate_oracle_rel (ctx : ValCtx) (hid : Bool)
    (ids : List String) (su : Nat) (o1 o2 : Nat → WriteRes) (rows : List Row)
    (h1 : ∀ n, o1 n ≠ WriteRes.exn) (h2 : ∀ n, o2 n ≠ WriteRes.exn) :
    ((cloneGenerate ctx hid ids true su o1 rows).1).filter
        (fun e => !isSuccessEvC e) =
      ((cloneGenerate ctx hid ids true su o2 rows).1).filter
        (fun e => !isSuccessEvC e) ∧
    (cloneGenerate ctx hid ids true su o1 rows).2.1.shadow =
      (cloneGenerate ctx hid ids true su o2 rows).2.1.shadow ∧
    (cloneGenerate ctx hid ids true su o1 rows).2.2 =
      (cloneGenerate ctx hid ids true su o2 rows).2.2 := by
  obtain ⟨hev, hsh, hq⟩ := runLoop_rel
    (fun x y => CloneSt.shadow x = CloneSt.shadow y)
    (cloneStep ctx hid ids true su rows.length o1)
    (cloneStep ctx hid ids true su rows.length o2)
    (fun pc row a b hab =>
      cloneStep_shadow ctx hid ids su rows.length o1 o2 h1 h2 pc row a b hab)
    (List.enumFrom 1 rows) CloneSt.init CloneSt.init rfl
  have hq2fin := hq
  cases hq1 : (runLoop (cloneStep ctx hid ids true su rows.length o1)
      (List.enumFrom 1 rows) CloneSt.init).2.2 with
  | finished =>
    have hq2 : (runLoop (cloneStep ctx hid ids true su rows.length o2)
        (List.enumFrom 1 rows) CloneSt.init).2.2 = .finished := by
      rw [← hq, hq1]
    refine ⟨?_, ?_, ?_⟩ <;>
      simp [cloneGenerate, hq1, hq2, List.filter_append, isSuccessEvC, hev, hsh]
  | broke =>
    have hq2 : (runLoop (cloneStep ctx hid ids true su rows.length o2)
        (List.enumFrom 1 rows) CloneSt.init).2.2 = .broke := by
      rw [← hq, hq1]
    refine ⟨?_, ?_, ?_⟩ <;>
      simp [cloneGenerate, hq1, hq2, List.filter_append, isSuccessEvC, hev, hsh]
  | returned =>
    have hq2 : (runLoop (cloneStep ctx hid ids true su rows.length o2)
        (List.enumFrom 1 rows) CloneSt.init).2.2 = .returned := by
      rw [← hq, hq1]
    refine ⟨?_, ?_, ?_⟩ <;>
      simp [cloneGenerate, hq1, hq2, isSuccessEvC, hev, hsh]
  | aborted =>
    have hq2 : (runLoop (cloneStep ctx hid ids true su rows.length o2)
        (List.enumFrom 1 rows) CloneSt.init).2.2 = .aborted := by
      rw [← hq, hq1]
    refine ⟨?_, ?_, ?_⟩ <;>
      simp [cloneGenerate, hq1, hq2, isSuccessEvC, hev, hsh]

theorem updateGenerate_oracle_rel (ctx : ValCtx) (ids : List String)
    (su : Nat) (o1 o2 : Nat → WriteRes) (rows : List Row)
    (h1 : ∀ n, o1 n ≠ WriteRes.exn) (h2 : ∀ n, o2 n ≠ WriteRes.exn) :
    ((updateGenerate ctx ids true su o1 rows).1).filter
        (fun e => !isSuccessEvU e) =
      ((updateGenerate ctx ids true su o2 rows).1).filter
        (fun e => !isSuccessEvU e) ∧
    (updateGenerate ctx ids true su o1 rows).2.1.shadow =
      (updateGenerate ctx ids true su o2 rows).2.1.shadow ∧
    (updateGenerate ctx ids true su o1 rows).2.2 =
      (updateGenerate ctx ids true su o2 rows).2.2 := by
  obtain ⟨hev, hsh, hq⟩ := runLoop_rel
    (fun x y => UpdateSt.shadow x = UpdateSt.shadow y)
    (updateStep ctx ids true su rows.length o1)
    (updateStep ctx ids true su rows.length o2)
    (fun pc row a b hab =>
      updateStep_shadow ctx ids su rows.length o1 o2 h1 h2 pc row a b hab)
    (List.enumFrom 1 rows) UpdateSt.init UpdateSt.init rfl
  cases hq1 : (runLoop (updateStep ctx ids true su rows.length o1)
      (List.enumFrom 1 rows) UpdateSt.init).2.2 with
  | finished =>
    have hq2 : (runLoop (updateStep ctx ids true su rows.length o2)
        (List.enumFrom 1 rows) UpdateSt.init).2.2 = .finished := by
      rw [← hq, hq1]
    refine ⟨?_, ?_, ?_⟩ <;>
      simp [updateGenerate, hq1, hq2, List.filter_append, isSuccessEvU, hev, hsh]
  | broke =>
    have hq2 : (runLoop (updateStep ctx ids true su rows.length o2)
        (List.enumFrom 1 rows) UpdateSt.init).2.2 = .broke := by
      rw [← hq, hq1]
    refine ⟨?_, ?_, ?_⟩ <;>
      simp [updateGenerate, hq1, hq2, List.filter_append, isSuccessEvU, hev, hsh]
  | returned =>
    have hq2 : (runLoop (updateStep ctx ids true su rows.length o2)
        (List.enumFrom 1 rows) UpdateSt.init).2.2 = .returned := by
      rw [← hq, hq1]
    refine ⟨?_, ?_, ?_⟩ <;>
      simp [updateGenerate, hq1, hq2, isSuccessEvU, hev, hsh]
  | aborted =>
    have hq2 : (runLoop (updateStep ctx ids true su rows.length o2)
        (List.enumFrom 1 rows) UpdateSt.init).2.2 = .aborted := by
      rw [← hq, hq1]
    refine ⟨?_, ?_, ?_⟩ <;>
      simp [updateGenerate, hq1, hq2, isSuccessEvU, hev, hsh]

/-- C5 counterexample: in execution mode a transport-level exception on the
first row's remote write aborts the whole run — the stream stops after the
first progress event, the second row is never processed, no terminal
success event is emitted, and no failure of any kind is recorded — in
both the clone and the update generators (the write is outside the
`try/except ValueError` and nothing catches transport errors). -/
theorem transport_exception_aborts_run :
    cloneGenerate ctx0 false [] true 0 oracleExnAt1 [rowX, rowX] =
        ([CloneEvent.progress 2 1 false], ⟨0, 0, 1, 0, []⟩, .aborted) ∧
      updateGenerate ctx0 ids0 true 0 oracleExnAt1 [rowU, rowU] =
        ([UpdateEvent.progress 2 1 false], ⟨0, 1, 0, 0, []⟩, .aborted) :=
  ⟨by decide, by decide⟩

/-- C5 (amended): in execution mode a per-row remote write whose response
status is outside the success set ({200,201,202} for clone, {200,201} for
update) is silently ignored — no failure counter or failure event exists;
the run never aborts as long as no transport exception occurs, and the
entire observable behaviour apart from the success counter (all events
except the terminal success event, all other counters, the rejection
details, and the way the stream ends) is independent of the write
outcomes.  A transport-level exception, by contrast, is not caught and
aborts the run (see the counterexample). -/
theorem write_failures_unrecorded_nonfatal :
    (∀ (ctx : ValCtx) (hid : Bool) (ids : List String) (su : Nat)
        (o : Nat → WriteRes) (rows : List Row),
      (∀ n, o n ≠ WriteRes.exn) →
      (cloneGenerate ctx hid ids true su o rows).2.2 ≠ .aborted)
  ∧ (∀ (ctx : ValCtx) (ids : List String) (su : Nat)
        (o : Nat → WriteRes) (rows : List Row),
      (∀ n, o n ≠ WriteRes.exn) →
      (updateGenerate ctx ids true su o rows).2.2 ≠ .aborted)
  ∧ (∀ (ctx : ValCtx) (hid : Bool) (ids : List String) (su : Nat)
        (o1 o2 : Nat → WriteRes) (rows : List Row),
      (∀ n, o1 n ≠ WriteRes.exn) → (∀ n, o2 n ≠ WriteRes.exn) →
      ((cloneGenerate ctx hid ids true su o1 rows).1).filter
          (fun e => !isSuccessEvC e) =
        ((cloneGenerate ctx hid ids true su o2 rows).1).filter
          (fun e => !isSuccessEvC e) ∧
      (cloneGenerate ctx hid ids true su o1 rows).2.1.shadow =
        (cloneGenerate ctx hid ids true su o2 rows).2.1.shadow ∧
      (cloneGenerate ctx hid ids true su o1 rows).2.2 =
        (cloneGenerate ctx hid ids true su o2 rows).2.2)
  ∧ (∀ (ctx : ValCtx) (ids : List String) (su : Nat)
        (o1 o2 : Nat → WriteRes) (rows : List Row),
      (∀ n, o1 n ≠ WriteRes.exn) → (∀ n, o2 n ≠ WriteRes.exn) →
      ((updateGenerate ctx ids true su o1 rows).1).filter
          (fun e => !isSuccessEvU e) =
        ((updateGenerate ctx ids true su o2 rows).1).filter
          (fun e => !isSuccessEvU e) ∧
      (updateGenerate ctx ids true su o1 rows).2.1.shadow =
        (updateGenerate ctx ids true su o2 rows).2.1.shadow ∧
      (updateGenerate ctx ids true su o1 rows).2.2 =
        (updateGenerate ctx ids true su o2 rows).2.2) := by
  refine ⟨?_, ?_, ?_, ?_⟩
  · intro ctx hid ids su o rows hno
    exact cloneGenerate_no_abort ctx hid ids su o rows hno
  · intro ctx ids su o rows hno
    exact updateGenerate_no_abort ctx ids su o rows hno
  · intro ctx hid ids su o1 o2 rows h1 h2
    exact cloneGenerate_oracle_rel ctx hid ids su o1 o2 rows h1 h2
  · intro ctx ids su o1 o2 rows h1 h2
    exact updateGenerate_oracle_rel ctx ids su o1 o2 rows h1 h2

/-- Witness for C5: with a remote answering 500 on every write, the
one-row fixture run still does not abort. -/
theorem write_failures_unrecorded_nonfatal_witness :
    (cloneGenerate ctx0 false [] true 0 (fun _ => WriteRes.status 500)
      [rowX]).2.2 ≠ .aborted :=
  write_failures_unrecorded_nonfatal.1 ctx0 false [] 0
    (fun _ => WriteRes.status 500) [rowX] (fun _ h => WriteRes.noConfusion h)

/-- C3 (code-bug exhibit): for a date-typed field, the cell
`"2024/01/05"` parses as a calendar date, yet the accepted payload keeps
the raw value `"2024/01/05"` rather than the normalized `"2024-01-05"`:
both sources compute `pd.to_datetime(str_val).strftime('%Y-%m-%d')` and
discard the result (their own comment says "Kobo expects ISO format
YYYY-MM-DD"). -/
theorem date_value_not_normalized :
    coerceCell pdToDatetimeModel (some "date") none "d" "2024/01/05" =
        .ok "2024/01/05" ∧
      ("2024/01/05" : String) ≠ "2024-01-05" :=
  ⟨by rfl, by decide⟩

/-- C7: for an integer-typed field, a non-empty cell is accepted exactly
when it parses as a real number that is mathematically a whole number, in
which case the payload stores its canonical integer string form; in
particular "10.0" becomes "10" and "10.5" is rejected with
`TypeMismatch`. -/
theorem integer_coercion_spec (dp : String → Option (Nat × Nat × Nat))
    (col s : String) :
    (∀ v : DecReal, parseFloat s = some v → v.isWhole = true →
      coerceCell dp (some "integer") none col s = .ok (toString v.intVal))
  ∧ (parseFloat s = none →
      coerceCell dp (some "integer") none col s =
        .error (.typeMismatch col s))
  ∧ (∀ v : DecReal, parseFloat s = some v → v.isWhole = false →
      coerceCell dp (some "integer") none col s =
        .error (.typeMismatch col s))
  ∧ coerceCell dp (some "integer") none "col" "10.0" = .ok "10"
  ∧ coerceCell dp (some "integer") none "col" "10.5" =
      .error (.typeMismatch "col" "10.5") := by
  refine ⟨?_, ?_, ?_, by rfl, by rfl⟩
  · intro v hv hw
    simp [coerceCell, typeCheck, constraintCheck, hv, hw]
  · intro hv
    simp [coerceCell, typeCheck, hv]
  · intro v hv hw
    simp [coerceCell, typeCheck, hv, hw]

/-- Witness for C7: applying the acceptance direction at the concrete cell
"10.0" (which parses as 100 / 10^1, a whole number) yields the canonical
integer string "10". -/
theorem integer_coercion_spec_witness :
    parseFloat "10.0" = some ⟨100, 1⟩ ∧
    DecReal.isWhole ⟨100, 1⟩ = true ∧
    coerceCell dp0 (some "integer") none "c" "10.0" =
      .ok (toString (DecReal.intVal ⟨100, 1⟩)) :=
  ⟨by decide, by decide,
    (integer_coercion_spec dp0 "c" "10.0").1 ⟨100, 1⟩ (by decide) (by decide)⟩

/-- C8: for a `select_multiple` field, the trimmed cell value is split on
commas and/or whitespace into tokens; the cell is accepted precisely when
every token belongs to the allowed set (otherwise it is rejected with
`InvalidChoice` naming an offending token), and the accepted payload value
is the tokens re-joined with a single space, so "a, b c" with allowed set
{a,b,c} becomes "a b c". -/
theorem select_multiple_spec (dp : String → Option (Nat × Nat × Nat))
    (allowed : List String) (col s : String) :
    (isAccepted (coerceCell dp (some "select_multiple")
        (some ⟨some "select_multiple", allowed⟩) col (pyStrip s)) = true ↔
      ∀ t ∈ splitTokens (pyStrip s), t ∈ allowed)
  ∧ (∀ v, coerceCell dp (some "select_multiple")
        (some ⟨some "select_multiple", allowed⟩) col (pyStrip s) = .ok v →
      v = " ".intercalate (splitTokens (pyStrip s)))
  ∧ ((∃ t ∈ splitTokens (pyStrip s), t ∉ allowed) →
      ∃ t ∈ splitTokens (pyStrip s), t ∉ allowed ∧
        coerceCell dp (some "select_multiple")
          (some ⟨some "select_multiple", allowed⟩) col (pyStrip s) =
          .error (.invalidChoice t col))
  ∧ coerceCell dp (some "select_multiple")
      (some ⟨some "select_multiple", ["a", "b", "c"]⟩) "col" "a, b c" =
      .ok "a b c" := by
  have hred : coerceCell dp (some "select_multiple")
      (some ⟨some "select_multiple", allowed⟩) col (pyStrip s) =
      (match (splitTokens (pyStrip s)).find?
          (fun t => decide (t ∉ allowed)) with
        | some t => .error (.invalidChoice t col)
        | none => .ok (" ".intercalate (splitTokens (pyStrip s)))) := by
    simp [coerceCell, typeCheck, constraintCheck]
  cases hf : (splitTokens (pyStrip s)).find? (fun t => decide (t ∉ allowed)) with
  | none =>
    rw [hf] at hred
    have hall : ∀ t ∈ splitTokens (pyStrip s), t ∈ allowed := by
      intro t ht
      have := List.find?_eq_none.mp hf t ht
      simpa using this
    refine ⟨?_, ?_, ?_, by rfl⟩
    · rw [hred]
      simp only [isAccepted]
      exact ⟨fun _ => hall, fun _ => trivial⟩
    · intro v hv
      rw [hred] at hv
      exact (Except.ok.inj hv).symm
    · rintro ⟨t, ht, hta⟩
      exact absurd (hall t ht) hta
  | some t =>
    rw [hf] at hred
    have htm : t ∈ splitTokens (pyStrip s) := List.mem_of_find?_eq_some hf
    have hta : t ∉ allowed := by
      have := List.find?_some hf
      simpa using this
    refine ⟨?_, ?_, ?_, by rfl⟩
    · rw [hred]
      simp only [isAccepted]
      constructor
      · intro h; exact absurd h (by simp)
      · intro hall; exact absurd (hall t htm) hta
    · intro v hv
      rw [hred] at hv
      exact absurd hv (by simp)
    · intro _
      exact ⟨t, htm, hta, hred⟩

/-- Witness for C8: the accepted value for the concrete cell "a, b c" is
the space-joined token list. -/
theorem select_multiple_spec_witness :
    ("a b c" : String) = " ".intercalate (splitTokens (pyStrip "a, b c")) :=
  (select_multiple_spec dp0 ["a", "b", "c"] "col" "a, b c").2.1 "a b c" (by rfl)

theorem dget_dinsert {α : Type} (d : List (String × α)) (k : String) (v : α) :
    dget (dinsert d k v) k = some v := by
  induction d with
  | nil => simp [dinsert, dget, List.find?]
  | cons p t ih =>
    obtain ⟨k', v'⟩ := p
    by_cases h : k' = k
    · subst h
      simp [dinsert, dget, List.find?]
    · simp only [dinsert, if_neg h]
      simp only [dget, List.find?] at ih ⊢
      rw [show (k' == k) = false from beq_eq_false_iff_ne.mpr h]
      exact ih

theorem dget_dinsert_ne {α : Type} (d : List (String × α)) (k k' : String)
    (v : α) (h : k' ≠ k) : dget (dinsert d k v) k' = dget d k' := by
  induction d with
  | nil =>
    simp [dinsert, dget, List.find?,
      show (k == k') = false from beq_eq_false_iff_ne.mpr (Ne.symm h)]
  | cons p t ih =>
    obtain ⟨k'', v''⟩ := p
    by_cases hk : k'' = k
    · subst hk
      simp [dinsert, dget, List.find?,
        show (k'' == k') = false from beq_eq_false_iff_ne.mpr (Ne.symm h)]
    · simp only [dinsert, if_neg hk]
      simp only [dget, List.find?] at ih ⊢
      cases hq : (k'' == k') with
      | true => rfl
      | false => exact ih

theorem recordTC_path_map (cm : List (Option String × List String))
    (it : SurveyItem) (full : String) (st : IndexState)
    (pm : List (String × String)) :
    (recordTypeAndConstraint cm it full st pm).path_map = pm := by
  simp only [recordTypeAndConstraint]
  split <;> rfl

theorem isLeaf_qtype_ne (excluded : List String) (it : SurveyItem) (x : String)
    (hx : x ∈ excluded) (h : isLeaf excluded it = true) :
    (it.qtype == some x) = false := by
  simp only [isLeaf, Bool.and_eq_true] at h
  by_cases hq : it.qtype = some x
  · exfalso
    have hmem : it.qtype ∈ excluded.map some := by
      rw [hq]
      exact List.mem_map_of_mem some hx
    have h1 := h.1
    rw [Bool.not_eq_true'] at h1
    have h2 := List.elem_eq_true_of_mem hmem
    rw [show ((List.map some excluded).contains it.qtype) =
      List.elem it.qtype (List.map some excluded) from rfl] at h1
    rw [h1] at h2
    exact Bool.false_ne_true h2
  · exact beq_eq_false_iff_ne.mpr hq

/-- C4 counterexample: for a survey with one group `g` containing one text
leaf `q`, the clone index resolves both the short name "q" and the full
path "g/q", but the update index never registers the short leaf name: its
`path_map` has no key "q" (the claim requires it to resolve to "g/q"). -/
theorem update_short_name_not_registered :
    dget (updateBuildIndex [] surveyGQ).path_map "q" = none ∧
      dget (cloneBuildIndex [] surveyGQ).path_map "q" = some "g/q" ∧
      dget (updateBuildIndex [] surveyGQ).path_map "g/q" = some "g/q" :=
  ⟨by decide, by decide, by decide⟩

/-- C4 (amended): when processing a non-excluded leaf question, the CLONE
index registers both the lower-cased leaf name and the lower-cased full
slash-delimited path as lookup keys resolving to the leaf's full path,
whereas the UPDATE index registers only the lower-cased full path — it
adds no other key, so an update table column can reference a field only by
full path. -/
theorem index_key_registration (cm : List (Option String × List String))
    (st : IndexState) (it : SurveyItem) :
    (isLeaf cloneExcludedTypes it = true →
      dget (cloneIndexStep cm st it).path_map (pyLower (pyStr it.qname)) =
        some ("/".intercalate (st.group_stack ++ [pyStr it.qname])) ∧
      dget (cloneIndexStep cm st it).path_map
          (pyLower ("/".intercalate (st.group_stack ++ [pyStr it.qname]))) =
        some ("/".intercalate (st.group_stack ++ [pyStr it.qname])))
  ∧ (isLeaf updateExcludedTypes it = true →
      dget (updateIndexStep cm st it).path_map
          (pyLower ("/".intercalate (st.group_stack ++ [pyStr it.qname]))) =
        some ("/".intercalate (st.group_stack ++ [pyStr it.qname])) ∧
      ∀ k, k ≠ pyLower ("/".intercalate (st.group_stack ++ [pyStr it.qname])) →
        dget (updateIndexStep cm st it).path_map k = dget st.path_map k) := by
  constructor
  · intro h
    have hbg := isLeaf_qtype_ne cloneExcludedTypes it "begin_group"
      (by simp [cloneExcludedTypes]) h
    have heg := isLeaf_qtype_ne cloneExcludedTypes it "end_group"
      (by simp [cloneExcludedTypes]) h
    simp only [cloneIndexStep, hbg, heg, Bool.false_eq_true, if_false, h,
      if_true, recordTC_path_map]
    constructor
    · by_cases hk : pyLower (pyStr it.qname) =
          pyLower ("/".intercalate (st.group_stack ++ [pyStr it.qname]))
      · rw [hk]
        exact dget_dinsert _ _ _
      · rw [dget_dinsert_ne _ _ _ _ hk]
        exact dget_dinsert _ _ _
    · exact dget_dinsert _ _ _
  · intro h
    have hbg := isLeaf_qtype_ne updateExcludedTypes it "begin_group"
      (by simp [updateExcludedTypes]) h
    have heg := isLeaf_qtype_ne updateExcludedTypes it "end_group"
      (by simp [updateExcludedTypes]) h
    simp only [updateIndexStep, hbg, heg, Bool.false_eq_true, if_false, h,
      if_true, recordTC_path_map]
    exact ⟨dget_dinsert _ _ _, fun k hk => dget_dinsert_ne _ _ _ _ hk⟩

/-- Witness for C4: a concrete text leaf `q` inside group `g` is a
non-excluded leaf, and the clone step registers its short name. -/
theorem index_key_registration_witness :
    dget (cloneIndexStep [] ⟨[], [], [], ["g"]⟩
        ⟨some "text", some "q", none⟩).path_map
        (pyLower (pyStr (some "q"))) =
      some ("/".intercalate (["g"] ++ [pyStr (some "q")])) :=
  ((index_key_registration [] ⟨[], [], [], ["g"]⟩
    ⟨some "text", some "q", none⟩).1 (by decide)).1

theorem typeCheck_error_shape (dp : String → Option (Nat × Nat × Nat))
    (ft : Option String) (col s : String) (r : Rejection)
    (h : typeCheck dp ft col s = .error r) : isFieldRejection r = true := by
  simp only [typeCheck] at h
  repeat' split at h
  all_goals first | (injection h with h2; subst h2; rfl) | simp at h

theorem constraintCheck_error_shape (cns : Option FieldConstraint)
    (col s : String) (r : Rejection)
    (h : constraintCheck cns col s = .error r) : isFieldRejection r = true := by
  simp only [constraintCheck] at h
  repeat' split at h
  all_goals first | (injection h with h2; subst h2; rfl) | simp at h

theorem coerceCell_error_shape (dp : String → Option (Nat × Nat × Nat))
    (ft : Option String) (cns : Option FieldConstraint) (col s : String)
    (r : Rejection) (h : coerceCell dp ft cns col s = .error r) :
    isFieldRejection r = true := by
  simp only [coerceCell] at h
  cases ht : typeCheck dp ft col s with
  | error r1 =>
    rw [ht] at h
    have h3 : (Except.error r1 : Except Rejection String) = .error r := h
    injection h3 with h4
    subst h4
    exact typeCheck_error_shape dp ft col s r1 ht
  | ok s2 =>
    rw [ht] at h
    have h3 : constraintCheck cns col s2 = .error r := h
    exact constraintCheck_error_shape cns col s2 r h3

theorem buildPayloadAux_error_shape (ctx : ValCtx) (row : Row) :
    ∀ (vf : List (String × String)) (acc : List (String × String))
      (r : Rejection), buildPayloadAux ctx row vf acc = .error r →
      isFieldRejection r = true := by
  intro vf
  induction vf with
  | nil =>
    intro acc r h
    simp [buildPayloadAux] at h
  | cons p rest ih =>
    intro acc r h
    obtain ⟨col, path⟩ := p
    simp only [buildPayloadAux] at h
    cases hg : Row.get row col with
    | none =>
      simp only [hg] at h
      exact ih acc r h
    | some v =>
      simp only [hg] at h
      cases hc : coerceCell ctx.dp ((dget ctx.field_types path).getD
          (some "text")) (dget ctx.field_constraints path) col (pyStrip v) with
      | error r2 =>
        simp only [hc] at h
        have h3 : (Except.error r2 : Except Rejection (List (String × String)))
            = .error r := h
        injection h3 with h4
        subst h4
        exact coerceCell_error_shape _ _ _ _ _ r2 hc
      | ok v2 =>
        simp only [hc] at h
        exact ih (dinsert acc path v2) r h

/-- C10: in the clone operation, identifier validation (empty check, shape
check, duplicate check against the existence snapshot) happens only when
the table has an `_id` column: when that column is absent the existence
snapshot stays empty regardless of what the listing endpoint would return,
every row goes straight to field coercion, and any rejection a row can
receive is a field rejection (`TypeMismatch` / `InvalidChoice`), never an
identifier rejection. -/
theorem clone_no_id_column_behavior :
    (∀ fetched : List String, cloneExistingIds false fetched = [])
  ∧ (∀ (ctx : ValCtx) (ids : List String) (row : Row),
      cloneRowCheck ctx false ids row =
        buildPayloadAux ctx row ctx.valid_fields [])
  ∧ (∀ (ctx : ValCtx) (ids : List String) (row : Row) (r : Rejection),
      cloneRowCheck ctx false ids row = .error r →
      isFieldRejection r = true) := by
  refine ⟨fun _ => rfl, fun ctx ids row => rfl, ?_⟩
  intro ctx ids row r h
  rw [show cloneRowCheck ctx false ids row =
    buildPayloadAux ctx row ctx.valid_fields [] from rfl] at h
  exact buildPayloadAux_error_shape ctx row ctx.valid_fields [] r h

/-- Witness for C10: on a table without `_id`, the integer fixture row is
rejected, and the rejection is indeed a field rejection. -/
theorem clone_no_id_column_behavior_witness :
    isFieldRejection (Rejection.typeMismatch "c" "x") = true :=
  clone_no_id_column_behavior.2.2 ctxInt [] rowX
    (Rejection.typeMismatch "c" "x") (by rfl)
